import Mathlib

/-!
Shallow embedding of the QuotaValidator validation core.

The definitions below are translated from the TypeScript sources of the
repository: the fiscal-half validators (`src/utils/validators.ts`), the
overlay region resolver (`overlayValidators.ts`), the submission-month
parser (`excelParser.ts`), the static lookup tables (`types.ts`), and the
LMS-schema validators (`lmsValidators.ts`).

JavaScript `Date` values are modelled by their UTC (year, month) pair,
since the code only ever reads `getUTCFullYear()` and `getUTCMonth() + 1`.
Cell values (`number | string | null`) are modelled by `CellVal` with
rational numbers standing for JS numbers; non-finite values (NaN and
Infinity literals inside cell strings) are outside the model and are not
relied upon by any theorem.
-/

namespace QuotaValidator

/-- Region enumeration from `types.ts` (`type Region = APAC | EMEAL | NAMER`). -/
inductive Region where
  | APAC
  | EMEAL
  | NAMER
deriving DecidableEq, Repr

/-- Name of a region, as interpolated into template strings. -/
def regionName : Region → String
  | .APAC => "APAC"
  | .EMEAL => "EMEAL"
  | .NAMER => "NAMER"

/-- Model of a spreadsheet cell value of TS type `number | string | null`. -/
inductive CellVal where
  | num (q : ℚ)
  | str (s : String)
  | null
deriving DecidableEq, Repr

/-- Twelve fiscal month keys used by the fiscal-half schema (`types.ts`). -/
inductive MonthKey where
  | JAN | FEB | MAR | APR | MAY | JUN
  | JUL | AUG | SEP | OCT | NOV | DEC
deriving DecidableEq, Repr

/-- Monthly quota map of `types.ts` (`MonthlyQuotas`): one cell per month. -/
structure MonthlyQuotas where
  JUL : CellVal
  AUG : CellVal
  SEP : CellVal
  OCT : CellVal
  NOV : CellVal
  DEC : CellVal
  JAN : CellVal
  FEB : CellVal
  MAR : CellVal
  APR : CellVal
  MAY : CellVal
  JUN : CellVal
deriving DecidableEq, Repr

/-- Indexing `monthlyQuotas[key]` from the TS record. -/
def MonthlyQuotas.get (q : MonthlyQuotas) : MonthKey → CellVal
  | .JUL => q.JUL
  | .AUG => q.AUG
  | .SEP => q.SEP
  | .OCT => q.OCT
  | .NOV => q.NOV
  | .DEC => q.DEC
  | .JAN => q.JAN
  | .FEB => q.FEB
  | .MAR => q.MAR
  | .APR => q.APR
  | .MAY => q.MAY
  | .JUN => q.JUN

/-- UTC date reduced to the only two components the code reads:
`getUTCFullYear()` and `getUTCMonth() + 1` (1-based calendar month). -/
structure UDate where
  year : Nat
  month : Nat
deriving DecidableEq, Repr

/-- Quota record of the fiscal-half schema (`types.ts`, `QuotaRecord`). -/
structure QuotaRecord where
  sheet : String
  row : Nat
  eid : String
  name : String
  level : String
  repRegion : String
  dualMetric : String
  quotaStartDate : Option UDate
  submissionMonth : Option UDate
  monthlyQuotas : MonthlyQuotas
  monthlyQuotasY2Y3 : Option MonthlyQuotas
  monthlyQuotasComp2 : Option MonthlyQuotas
  monthlyQuotasComp2Y2Y3 : Option MonthlyQuotas
deriving DecidableEq, Repr

/-- Roster entry (`types.ts`, `ReferenceRecord`); nullable strings are
`Option String` (the parser canonicalizes blank cells to null). -/
structure ReferenceRecord where
  eid : String
  fullName : String
  activeStatus : Option String
  onLeave : Option String
  country : Option String
  jobTitle : Option String
deriving DecidableEq, Repr

/-- ASCII model of JS `toLowerCase`, written over the character list so
that the kernel can evaluate it. -/
def lowerStr (s : String) : String :=
  ⟨s.data.map Char.toLower⟩

/-- ASCII model of JS `toUpperCase`. -/
def upperStr (s : String) : String :=
  ⟨s.data.map Char.toUpper⟩

/-- Model of JS `startsWith`. -/
def startsWithStr (s pre : String) : Bool :=
  pre.data.isPrefixOf s.data

/-- Whitespace test of the trim model (ASCII whitespace). -/
def isWsp (c : Char) : Bool :=
  c == ' ' || c == '\t' || c == '\n' || c == '\r'

/-- Model of JS `trim` (ASCII whitespace at both ends). -/
def trimStr (s : String) : String :=
  ⟨((s.data.dropWhile isWsp).reverse.dropWhile isWsp).reverse⟩

/-- String length in characters (JS `.length` on the BMP inputs used
here). -/
def lengthStr (s : String) : Nat :=
  s.data.length

/-- Model of `Array.prototype.join(sep)` / `String.intercalate`. -/
def intercalateStr (sep : String) : List String → String
  | [] => ""
  | [x] => x
  | x :: y :: rest => x ++ sep ++ intercalateStr sep (y :: rest)

/-- Predicate `isTbhOrBlank` from `validators.ts`:
`!eid || eid === '-' || eid.toLowerCase().startsWith('tbh')`. -/
def isTbhOrBlank (eid : String) : Bool :=
  eid == "" || eid == "-" || startsWithStr (lowerStr eid) "tbh"

/-- Predicate `isQuotaValueMissing` from `validators.ts`: null/undefined, a
blank or dash string, or the number zero. -/
def isQuotaValueMissing : CellVal → Bool
  | .null => true
  | .str s => trimStr s == "" || trimStr s == "-"
  | .num q => q == 0

/-- Static `COUNTRY_REGION_MAP` from `types.ts`, kept in source order. -/
def COUNTRY_REGION_MAP : List (String × Region) :=
  [("Australia", .APAC),
   ("Austria", .EMEAL),
   ("Belgium", .EMEAL),
   ("Brazil", .EMEAL),
   ("Canada", .NAMER),
   ("China", .APAC),
   ("France", .EMEAL),
   ("Germany", .EMEAL),
   ("Hong Kong", .APAC),
   ("India", .APAC),
   ("Ireland", .EMEAL),
   ("Israel", .EMEAL),
   ("Italy", .EMEAL),
   ("Japan", .APAC),
   ("Malaysia", .APAC),
   ("Mexico", .EMEAL),
   ("Netherlands", .EMEAL),
   ("Singapore", .APAC),
   ("Spain", .EMEAL),
   ("Sweden", .EMEAL),
   ("United Arab Emirates", .EMEAL),
   ("United Kingdom", .EMEAL),
   ("United States of America", .NAMER)]

/-- Object-key lookup `COUNTRY_REGION_MAP[country]` (undefined = none). -/
def countryRegion (c : String) : Option Region :=
  (COUNTRY_REGION_MAP.find? (fun p => p.1 == c)).map (·.2)

/-- Function `getCountriesForRegion` from `types.ts`: the entries of the map
whose region matches, in map order. -/
def getCountriesForRegion (region : Region) : List String :=
  (COUNTRY_REGION_MAP.filter (fun p => p.2 == region)).map (·.1)

/-- Lookup in the `Map<string, ReferenceRecord[]>` built by pushing each
roster record onto its eid key: the sublist of records with that eid,
in file order. -/
def refLookup (refRecords : List ReferenceRecord) (eid : String) : List ReferenceRecord :=
  refRecords.filter (fun r => r.eid == eid)

/-- Result of parsing a submission-month label (`{year, month}`). -/
structure ParsedMonth where
  year : Nat
  month : Nat
deriving DecidableEq, Repr

/-- Index (1-based) of a lowercase three-letter month abbreviation, the
lookup table inside `parseSubmissionMonthLabel`. -/
def monthAbbrevIndex : String → Option Nat
  | "jan" => some 1
  | "feb" => some 2
  | "mar" => some 3
  | "apr" => some 4
  | "may" => some 5
  | "jun" => some 6
  | "jul" => some 7
  | "aug" => some 8
  | "sep" => some 9
  | "oct" => some 10
  | "nov" => some 11
  | "dec" => some 12
  | _ => none

/-- Function `parseSubmissionMonthLabel` from `excelParser.ts`: the label
must match the anchored case-insensitive pattern of a three-letter month
abbreviation, a hyphen, and two digits; the year is `2000 + YY`. -/
def parseSubmissionMonthLabel (label : String) : Option ParsedMonth :=
  match label.data with
  | [c1, c2, c3, c4, d1, d2] =>
    if c4 == '-' && d1.isDigit && d2.isDigit then
      match monthAbbrevIndex (String.mk [c1.toLower, c2.toLower, c3.toLower]) with
      | some m => some ⟨2000 + (d1.toNat - 48) * 10 + (d2.toNat - 48), m⟩
      | none => none
    else none
  | _ => none

/-- The twelve recognized month abbreviations, lowercased. -/
def MONTH_ABBREVS : List String :=
  ["jan", "feb", "mar", "apr", "may", "jun",
   "jul", "aug", "sep", "oct", "nov", "dec"]

/-- Spec-side statement of the period-label format: a three-letter month
abbreviation (case-insensitive), a hyphen, and two digits. Stated from the
specification's words, for comparison with `parseSubmissionMonthLabel`. -/
def matchesMonthLabelFormat (label : String) : Prop :=
  ∃ c1 c2 c3 d1 d2 : Char,
    label.data = [c1, c2, c3, '-', d1, d2] ∧
    String.mk [c1.toLower, c2.toLower, c3.toLower] ∈ MONTH_ABBREVS ∧
    d1.isDigit = true ∧ d2.isDigit = true

/-- Validation verdict (`ValidationStatus`). -/
inductive VStatus where
  | pass
  | fail
  | skip
deriving DecidableEq, Repr

/-- Snapshot of roster fields attached to a V1 result (`refInfo`). -/
structure RefInfo where
  activeStatus : Option String
  onLeave : Option String
  country : Option String
deriving DecidableEq, Repr

/-- Result row of Check 1 (`V1Result`). -/
structure V1Result where
  record : QuotaRecord
  status : VStatus
  reason : String
  refInfo : Option RefInfo
deriving DecidableEq, Repr

/-- Projection of a roster entry into the `refInfo` snapshot. -/
def refInfoOf (r : ReferenceRecord) : RefInfo :=
  ⟨r.activeStatus, r.onLeave, r.country⟩

/-- JavaScript truthiness of a nullable string: null and the empty string
are falsy, every other string is truthy. -/
def jsTruthy : Option String → Bool
  | none => false
  | some s => s != ""

/-- Interpolation `x ?? '(blank)'` used by the issue messages. -/
def showOpt (s : Option String) : String := s.getD "(blank)"

/-- Country-violation message of Check 1, including the optional
`(Region: ...)` fragment when the country maps to a known region. -/
def countryIssueStr (selectedRegion : Region) (ref : ReferenceRecord) : String :=
  let regionOfCountry := if jsTruthy ref.country then countryRegion (ref.country.getD "") else none
  "Country=\"" ++ showOpt ref.country ++ "\"" ++
    (match regionOfCountry with
     | some r => " (Region: " ++ regionName r ++ ")"
     | none => "") ++
    " - not in " ++ regionName selectedRegion

/-- Violation list collected for one roster entry by the inner loop of
Check 1: active status must be exactly "Yes", on-leave must be blank,
country must be truthy and in the selected region's valid set. -/
def refIssues (validCountries : List String) (selectedRegion : Region)
    (ref : ReferenceRecord) : List String :=
  (if ref.activeStatus == some "Yes" then []
   else ["Active Status=\"" ++ showOpt ref.activeStatus ++ "\" (expected Yes)"]) ++
  (if jsTruthy ref.onLeave then
     ["On Leave=\"" ++ ref.onLeave.getD "" ++ "\" (expected blank)"]
   else []) ++
  (if !jsTruthy ref.country || !validCountries.contains (ref.country.getD "") then
     [countryIssueStr selectedRegion ref]
   else [])

/-- Loop state of Check 1 over the roster entries of one eid: mirrors the
mutable `foundValid` / `lastIssues` / `lastRef` variables, breaking at the
first entry with zero violations. -/
def scanRefs (validCountries : List String) (selectedRegion : Region)
    (lastIssues : List String) (lastRef : Option ReferenceRecord) :
    List ReferenceRecord → Bool × List String × Option ReferenceRecord
  | [] => (false, lastIssues, lastRef)
  | ref :: rest =>
    let issues := refIssues validCountries selectedRegion ref
    if issues.isEmpty then (true, lastIssues, some ref)
    else scanRefs validCountries selectedRegion issues (some ref) rest

/-- Check 1 on one record (`VALIDATION 1: EID Reference Check` block of
`runValidation` in `validators.ts`). -/
def v1ForRecord (refRecords : List ReferenceRecord) (validCountries : List String)
    (selectedRegion : Region) (rec : QuotaRecord) : V1Result :=
  if isTbhOrBlank rec.eid then
    ⟨rec, .skip, "TBH / Blank EID", none⟩
  else
    let refs := refLookup refRecords rec.eid
    if refs.isEmpty then
      ⟨rec, .fail, "EID not found in reference file", none⟩
    else
      let scan := scanRefs validCountries selectedRegion [] none refs
      if scan.1 then
        ⟨rec, .pass, "", scan.2.2.map refInfoOf⟩
      else
        ⟨rec, .fail, intercalateStr "; " scan.2.1, scan.2.2.map refInfoOf⟩

/-- Duplicate group row of Check 2 (`V2Result`). -/
structure V2Result where
  eid : String
  occurrences : List QuotaRecord
deriving DecidableEq, Repr

/-- Key accumulation of a JS `Map` filled by insertion: a key already seen
is skipped, a new key is appended and remembered. -/
def firstDedupAux (seen : List String) : List String → List String
  | [] => []
  | e :: rest =>
    if seen.contains e then firstDedupAux seen rest
    else e :: firstDedupAux (e :: seen) rest

/-- Deduplication keeping the FIRST occurrence of each key, in order: the
iteration order of the keys of a JS `Map` filled by insertion. -/
def firstDedup (l : List String) : List String := firstDedupAux [] l

/-- Check 2 (`VALIDATION 2: Duplicate EID Check`): group the
non-placeholder records of the selected period by eid (a `Map` filled by
insertion), and report every group with more than one occurrence. -/
def dupGroups (targetRecords : List QuotaRecord) : List V2Result :=
  let nonTbh := targetRecords.filter (fun r => !isTbhOrBlank r.eid)
  let keys := firstDedup (nonTbh.map (·.eid))
  (keys.map (fun e => V2Result.mk e (nonTbh.filter (fun r => r.eid == e)))).filter
    (fun g => g.occurrences.length > 1)

/-- Fiscal half selector (`FiscalHalf`). -/
inductive FiscalHalf where
  | H1
  | H2
deriving DecidableEq, Repr

/-- Month keys of H1 (`H1_MONTHS` in `types.ts`). -/
def H1_MONTHS : List MonthKey := [.JUL, .AUG, .SEP, .OCT, .NOV, .DEC]

/-- Month keys of H2 (`H2_MONTHS` in `types.ts`). -/
def H2_MONTHS : List MonthKey := [.JAN, .FEB, .MAR, .APR, .MAY, .JUN]

/-- The loop of Check 3 walks `halfMonthKeys[i]` with
`calMonth = halfStartCalMonth + i`; this is that indexed list. -/
def halfPairs (isH1 : Bool) : List (Nat × MonthKey) :=
  if isH1 then
    [(7, .JUL), (8, .AUG), (9, .SEP), (10, .OCT), (11, .NOV), (12, .DEC)]
  else
    [(1, .JAN), (2, .FEB), (3, .MAR), (4, .APR), (5, .MAY), (6, .JUN)]

/-- Gated bucket read `has ? bucket![key] : null` from the Check 3 loop. -/
def bucketVal (has : Bool) (bucket : Option MonthlyQuotas) (k : MonthKey) : CellVal :=
  if has then
    match bucket with
    | some q => q.get k
    | none => .null
  else .null

/-- Missing-month accumulation of Check 3 for one bucket: a month key is
pushed when its calendar index is at or past the effective start month and
the bucket's value there is missing. -/
def collectMissing (vals : MonthKey → CellVal) (eff : Nat)
    (pairs : List (Nat × MonthKey)) : List MonthKey :=
  pairs.filterMap (fun p =>
    if decide (p.1 ≥ eff) && isQuotaValueMissing (vals p.2) then some p.2 else none)

/-- Per-month value snapshot (`quotaValues[key] = val`) of Check 3,
recorded for every month of the half regardless of missing status. -/
def snapshotVals (vals : MonthKey → CellVal)
    (pairs : List (Nat × MonthKey)) : List (MonthKey × CellVal) :=
  pairs.map (fun p => (p.2, vals p.2))

/-- Result row of Check 3 (`V3Result`). -/
structure V3Result where
  record : QuotaRecord
  half : FiscalHalf
  missingMonths : List MonthKey
  quotaValues : List (MonthKey × CellVal)
  missingMonthsY2Y3 : List MonthKey
  quotaValuesY2Y3 : List (MonthKey × CellVal)
  hasY2Y3 : Bool
  missingMonthsComp2 : List MonthKey
  quotaValuesComp2 : List (MonthKey × CellVal)
  missingMonthsComp2Y2Y3 : List MonthKey
  quotaValuesComp2Y2Y3 : List (MonthKey × CellVal)
  hasComp2 : Bool
  hasComp2Y2Y3 : Bool
deriving DecidableEq, Repr

/-- Half selector of Check 3: `parsed.month >= 7` picks H1. -/
def isH1of (parsed : ParsedMonth) : Bool :=
  parsed.month ≥ 7

/-- First calendar month of the half (`halfStartCalMonth`). -/
def halfStartOf (isH1 : Bool) : Nat :=
  if isH1 then 7 else 1

/-- Last calendar month of the half (`halfEndCalMonth`). -/
def halfEndOf (isH1 : Bool) : Nat :=
  if isH1 then 12 else 6

/-- Skip test of Check 3: the quota start falls after the end of the half
(by year then month comparison). -/
def startsAfterHalf (halfYear : Nat) (isH1 : Bool) (qs : UDate) : Bool :=
  qs.year > halfYear || (qs.year == halfYear && qs.month > halfEndOf isH1)

/-- Effective start month of Check 3 (`effectiveStartCalMonth`). -/
def effStartOf (halfYear : Nat) (isH1 : Bool) (qs : UDate) : Nat :=
  if qs.year < halfYear || (qs.year == halfYear && qs.month < halfStartOf isH1) then
    halfStartOf isH1
  else qs.month

/-- The `hasY2Y3` flag of the Check 3 loop. -/
def hasY2Y3of (rec : QuotaRecord) : Bool :=
  rec.monthlyQuotasY2Y3 != none

/-- The `hasComp2` flag of the Check 3 loop (gated on the dual-metric
flag equalling "DMC" after uppercasing). -/
def hasComp2of (rec : QuotaRecord) : Bool :=
  (upperStr rec.dualMetric == "DMC") && (rec.monthlyQuotasComp2 != none)

/-- The `hasComp2Y2Y3` flag of the Check 3 loop. -/
def hasComp2Y2Y3of (rec : QuotaRecord) : Bool :=
  (upperStr rec.dualMetric == "DMC") && (rec.monthlyQuotasComp2Y2Y3 != none)

/-- The `missingMonths` accumulation of the Check 3 loop (Comp1 Y1). -/
def v3MissingY1 (parsed : ParsedMonth) (rec : QuotaRecord) (qs : UDate) :
    List MonthKey :=
  collectMissing (fun k => rec.monthlyQuotas.get k)
    (effStartOf parsed.year (isH1of parsed) qs) (halfPairs (isH1of parsed))

/-- The `missingMonthsY2Y3` accumulation (guarded by `hasY2Y3`). -/
def v3MissingY2Y3 (parsed : ParsedMonth) (rec : QuotaRecord) (qs : UDate) :
    List MonthKey :=
  if hasY2Y3of rec then
    collectMissing (fun k => bucketVal (hasY2Y3of rec) rec.monthlyQuotasY2Y3 k)
      (effStartOf parsed.year (isH1of parsed) qs) (halfPairs (isH1of parsed))
  else []

/-- The `missingMonthsComp2` accumulation (guarded by `hasComp2`). -/
def v3MissingComp2 (parsed : ParsedMonth) (rec : QuotaRecord) (qs : UDate) :
    List MonthKey :=
  if hasComp2of rec then
    collectMissing (fun k => bucketVal (hasComp2of rec) rec.monthlyQuotasComp2 k)
      (effStartOf parsed.year (isH1of parsed) qs) (halfPairs (isH1of parsed))
  else []

/-- The `missingMonthsComp2Y2Y3` accumulation (guarded by `hasComp2Y2Y3`). -/
def v3MissingComp2Y2Y3 (parsed : ParsedMonth) (rec : QuotaRecord) (qs : UDate) :
    List MonthKey :=
  if hasComp2Y2Y3of rec then
    collectMissing (fun k => bucketVal (hasComp2Y2Y3of rec) rec.monthlyQuotasComp2Y2Y3 k)
      (effStartOf parsed.year (isH1of parsed) qs) (halfPairs (isH1of parsed))
  else []

/-- The `hasMissing` test of Check 3: some bucket accumulated a missing
month. -/
def v3HasMissing (parsed : ParsedMonth) (rec : QuotaRecord) (qs : UDate) : Bool :=
  !(v3MissingY1 parsed rec qs).isEmpty ||
  !(v3MissingY2Y3 parsed rec qs).isEmpty ||
  !(v3MissingComp2 parsed rec qs).isEmpty ||
  !(v3MissingComp2Y2Y3 parsed rec qs).isEmpty

/-- The result row pushed by Check 3 when `hasMissing` holds. -/
def v3ResultRow (parsed : ParsedMonth) (rec : QuotaRecord) (qs : UDate) : V3Result :=
  { record := rec
    half := if isH1of parsed then .H1 else .H2
    missingMonths := v3MissingY1 parsed rec qs
    quotaValues := snapshotVals (fun k => rec.monthlyQuotas.get k)
      (halfPairs (isH1of parsed))
    missingMonthsY2Y3 := v3MissingY2Y3 parsed rec qs
    quotaValuesY2Y3 := snapshotVals
      (fun k => bucketVal (hasY2Y3of rec) rec.monthlyQuotasY2Y3 k)
      (halfPairs (isH1of parsed))
    hasY2Y3 := hasY2Y3of rec
    missingMonthsComp2 := v3MissingComp2 parsed rec qs
    quotaValuesComp2 := snapshotVals
      (fun k => bucketVal (hasComp2of rec) rec.monthlyQuotasComp2 k)
      (halfPairs (isH1of parsed))
    missingMonthsComp2Y2Y3 := v3MissingComp2Y2Y3 parsed rec qs
    quotaValuesComp2Y2Y3 := snapshotVals
      (fun k => bucketVal (hasComp2Y2Y3of rec) rec.monthlyQuotasComp2Y2Y3 k)
      (halfPairs (isH1of parsed))
    hasComp2 := hasComp2of rec
    hasComp2Y2Y3 := hasComp2Y2Y3of rec }

/-- Check 3 on one record (`VALIDATION 3: Missing Quota Amounts` block of
`runValidation`): none when the record is skipped or has no missing month,
otherwise the assembled result row. -/
def v3ForRecord (parsed : ParsedMonth) (rec : QuotaRecord) : Option V3Result :=
  match rec.quotaStartDate with
  | none => none
  | some qs =>
    if startsAfterHalf parsed.year (isH1of parsed) qs then
      none
    else if v3HasMissing parsed rec qs then
      some (v3ResultRow parsed rec qs)
    else none

/-- Period filter applied at the start of `runValidation`: the record's
submission month, read in UTC, equals the parsed (year, month). -/
def periodMatches (parsed : ParsedMonth) (rec : QuotaRecord) : Bool :=
  match rec.submissionMonth with
  | none => false
  | some d => d.year == parsed.year && d.month == parsed.month

/-- Summary block of `ValidationResults`. -/
structure VSummary where
  v1Pass : Nat
  v1Fail : Nat
  v1Skip : Nat
  v2DuplicateEids : Nat
  v3MissingQuota : Nat
  totalRecords : Nat
deriving DecidableEq, Repr

/-- Full result of one run (`ValidationResults`). -/
structure ValidationResults where
  v1 : List V1Result
  v2 : List V2Result
  v3 : List V3Result
  summary : VSummary
deriving DecidableEq, Repr

/-- Function `runValidation` from `validators.ts`. The thrown
`Invalid submission month` error is modelled as `Except.error`; a
successful run returns the three result lists and the summary. -/
def runValidation (allRecords : List QuotaRecord) (refRecords : List ReferenceRecord)
    (selectedMonth : String) (selectedRegion : Region) :
    Except String ValidationResults :=
  match parseSubmissionMonthLabel selectedMonth with
  | none => .error ("Invalid submission month: " ++ selectedMonth)
  | some parsed =>
    let targetRecords := allRecords.filter (periodMatches parsed)
    let validCountries := getCountriesForRegion selectedRegion
    let v1Results := targetRecords.map (v1ForRecord refRecords validCountries selectedRegion)
    let v2Results := dupGroups targetRecords
    let v3Results := targetRecords.filterMap (v3ForRecord parsed)
    .ok
      { v1 := v1Results
        v2 := v2Results
        v3 := v3Results
        summary :=
          { v1Pass := (v1Results.filter (fun r => r.status == .pass)).length
            v1Fail := (v1Results.filter (fun r => r.status == .fail)).length
            v1Skip := (v1Results.filter (fun r => r.status == .skip)).length
            v2DuplicateEids := v2Results.length
            v3MissingQuota := v3Results.length
            totalRecords := targetRecords.length } }

/-- Static `COUNTRY_CODE_REGION_MAP` from `types.ts` (ISO 2-letter codes),
as an object-key lookup. -/
def countryCodeRegion : String → Option Region
  | "AU" => some .APAC
  | "AT" => some .EMEAL
  | "BE" => some .EMEAL
  | "BR" => some .EMEAL
  | "CA" => some .NAMER
  | "CN" => some .APAC
  | "FR" => some .EMEAL
  | "DE" => some .EMEAL
  | "HK" => some .APAC
  | "IN" => some .APAC
  | "IE" => some .EMEAL
  | "IL" => some .EMEAL
  | "IT" => some .EMEAL
  | "JP" => some .APAC
  | "MY" => some .APAC
  | "MX" => some .EMEAL
  | "NL" => some .EMEAL
  | "SG" => some .APAC
  | "ES" => some .EMEAL
  | "SE" => some .EMEAL
  | "AE" => some .EMEAL
  | "GB" => some .EMEAL
  | "UK" => some .EMEAL
  | "US" => some .NAMER
  | "KR" => some .APAC
  | "TW" => some .APAC
  | "TH" => some .APAC
  | "NZ" => some .APAC
  | "PH" => some .APAC
  | "ID" => some .APAC
  | "VN" => some .APAC
  | "AR" => some .EMEAL
  | "CL" => some .EMEAL
  | "CO" => some .EMEAL
  | "PE" => some .EMEAL
  | "ZA" => some .EMEAL
  | "SA" => some .EMEAL
  | "TR" => some .EMEAL
  | "PL" => some .EMEAL
  | "CZ" => some .EMEAL
  | "NO" => some .EMEAL
  | "DK" => some .EMEAL
  | "FI" => some .EMEAL
  | "PT" => some .EMEAL
  | "CH" => some .EMEAL
  | "RO" => some .EMEAL
  | "HU" => some .EMEAL
  | _ => none

/-- Static `MARKET_SEGMENT_REGION_MAP` from `types.ts`. -/
def marketSegmentRegion : String → Option Region
  | "APAC" => some .APAC
  | "EMEAL" => some .EMEAL
  | "EMEA" => some .EMEAL
  | "LATAM" => some .EMEAL
  | "NAMER" => some .NAMER
  | _ => none

/-- Match-type tag of the overlay region resolver (`RegionMatchType`). -/
inductive RegionMatchType where
  | scr
  | segment_direct
  | segment_country_code
  | unknown
deriving DecidableEq, Repr

/-- Tagged outcome of the overlay region resolver (`OverlayRegionInfo`). -/
structure OverlayRegionInfo where
  matchType : RegionMatchType
  comment : String
deriving DecidableEq, Repr

/-- Fallback part of `resolveRegion` (`overlayValidators.ts`): Market
Segment direct match, then 2-letter country-code match, then the
include-by-default unknown tag. -/
def segmentFallback (rec : QuotaRecord) (selectedRegion : Region) :
    Bool × OverlayRegionInfo :=
  let marketSegment := trimStr rec.repRegion
  let segmentUpper := upperStr marketSegment
  match marketSegmentRegion segmentUpper with
  | some directRegion =>
    if directRegion == selectedRegion then
      (true, ⟨.segment_direct, "Market Segment: " ++ marketSegment⟩)
    else
      (false, ⟨.segment_direct,
        "Market Segment \"" ++ marketSegment ++ "\" → " ++ regionName directRegion ++
          ", not " ++ regionName selectedRegion⟩)
  | none =>
    if lengthStr segmentUpper == 2 then
      match countryCodeRegion segmentUpper with
      | some codeRegion =>
        if codeRegion == selectedRegion then
          (true, ⟨.segment_country_code,
            "Market Segment \"" ++ marketSegment ++ "\" → country code → " ++
              regionName codeRegion⟩)
        else
          (false, ⟨.segment_country_code,
            "Market Segment \"" ++ marketSegment ++ "\" → " ++ regionName codeRegion ++
              ", not " ++ regionName selectedRegion⟩)
      | none =>
        (true, ⟨.unknown,
          "Region unconfirmed: EID not in SCR, Market Segment \"" ++ marketSegment ++
            "\" not recognized as a region or country code"⟩)
    else
      (true, ⟨.unknown,
        "Region unconfirmed: EID not in SCR, Market Segment \"" ++ marketSegment ++
          "\" not recognized as a region or country code"⟩)

/-- Function `resolveRegion` from `overlayValidators.ts`: placeholder eid,
then SCR (roster) country lookup, then roster-country mismatch exclusion,
then the market-segment fallbacks. -/
def resolveRegion (rec : QuotaRecord) (refRecords : List ReferenceRecord)
    (validCountries : List String) (selectedRegion : Region) :
    Bool × OverlayRegionInfo :=
  if isTbhOrBlank rec.eid then
    (true, ⟨.unknown, "TBH / Blank EID"⟩)
  else
    match refLookup refRecords rec.eid with
    | [] => segmentFallback rec selectedRegion
    | firstRef :: rest =>
      let refs := firstRef :: rest
      match refs.find? (fun ref =>
          match ref.country with
          | some c => validCountries.contains c
          | none => false) with
      | some matchingRef =>
        (true, ⟨.scr, "SCR: " ++ matchingRef.country.getD ""⟩)
      | none =>
        if jsTruthy firstRef.country then
          let country := firstRef.country.getD ""
          match countryRegion country with
          | some refRegion =>
            if refRegion != selectedRegion then
              (false, ⟨.scr,
                "SCR Country \"" ++ country ++ "\" belongs to " ++ regionName refRegion ++
                  ", not " ++ regionName selectedRegion⟩)
            else segmentFallback rec selectedRegion
          | none => segmentFallback rec selectedRegion
        else segmentFallback rec selectedRegion

/-- Six-month window keys of the LMS schema (`LMS_MONTHS`). -/
inductive LmsMonth where
  | JAN | FEB | MAR | APR | MAY | JUN
deriving DecidableEq, Repr

/-- List form of `LMS_MONTHS`, in order. -/
def LMS_MONTHS : List LmsMonth := [.JAN, .FEB, .MAR, .APR, .MAY, .JUN]

/-- Calendar index table `LMS_MONTH_TO_CAL`. -/
def lmsMonthToCal : LmsMonth → Nat
  | .JAN => 1
  | .FEB => 2
  | .MAR => 3
  | .APR => 4
  | .MAY => 5
  | .JUN => 6

/-- Month name as interpolated into LMS column identifiers. -/
def lmsMonthName : LmsMonth → String
  | .JAN => "JAN"
  | .FEB => "FEB"
  | .MAR => "MAR"
  | .APR => "APR"
  | .MAY => "MAY"
  | .JUN => "JUN"

/-- Monthly map of the LMS schema (`LmsMonthlyQuotas`). -/
structure LmsMonthlyQuotas where
  JAN : CellVal
  FEB : CellVal
  MAR : CellVal
  APR : CellVal
  MAY : CellVal
  JUN : CellVal
deriving DecidableEq, Repr

/-- Indexing `rev1Monthly[month]` on the LMS record. -/
def LmsMonthlyQuotas.get (q : LmsMonthlyQuotas) : LmsMonth → CellVal
  | .JAN => q.JAN
  | .FEB => q.FEB
  | .MAR => q.MAR
  | .APR => q.APR
  | .MAY => q.MAY
  | .JUN => q.JUN

/-- LMS quota record (`LmsQuotaRecord` in `lmsTypes.ts`). -/
structure LmsQuotaRecord where
  row : Nat
  name : String
  employeeId : String
  managerId : String
  managerName : String
  geo : String
  tier : String
  segment : String
  sdGroup : String
  team : String
  component : String
  planType : String
  recentEvent : String
  quotaEffectiveDate : Option UDate
  notes : String
  q3Quota : CellVal
  q4Quota : CellVal
  h2Quota : CellVal
  rev1Monthly : LmsMonthlyQuotas
  q3GlobalQuota : CellVal
  q4GlobalQuota : CellVal
  h2GlobalQuota : CellVal
  rev2Monthly : LmsMonthlyQuotas
  bookCountMonthly : LmsMonthlyQuotas
deriving DecidableEq, Repr

/-- Digit run at the head of a character list. -/
def takeDigits (cs : List Char) : List Char × List Char :=
  (cs.takeWhile Char.isDigit, cs.dropWhile Char.isDigit)

/-- Numeric value of a digit run. -/
def digitsToNat (ds : List Char) : Nat :=
  ds.foldl (fun a c => a * 10 + (c.toNat - 48)) 0

/-- Model of JS `parseFloat` on finite decimal literals: leading
whitespace, optional sign, digits with optional fraction, optional
exponent; `none` models NaN (no digits parsed). Infinity literals are
outside the model. -/
def jsParseFloat (s : String) : Option ℚ :=
  let cs := s.data.dropWhile (fun c =>
    c == ' ' || c == '\t' || c == '\n' || c == '\r')
  let signed : Bool × List Char :=
    match cs with
    | '-' :: rest => (true, rest)
    | '+' :: rest => (false, rest)
    | _ => (false, cs)
  let neg := signed.1
  let intPart := takeDigits signed.2
  let fracPart : List Char × List Char :=
    match intPart.2 with
    | '.' :: rest => takeDigits rest
    | _ => ([], intPart.2)
  if intPart.1.isEmpty && fracPart.1.isEmpty then none
  else
    let mantissa : ℚ :=
      (digitsToNat intPart.1 : ℚ) +
        (digitsToNat fracPart.1 : ℚ) / ((10 : ℚ) ^ fracPart.1.length)
    let expPart : Bool × List Char :=
      match fracPart.2 with
      | 'e' :: '-' :: rest => (true, (takeDigits rest).1)
      | 'e' :: '+' :: rest => (false, (takeDigits rest).1)
      | 'e' :: rest => (false, (takeDigits rest).1)
      | 'E' :: '-' :: rest => (true, (takeDigits rest).1)
      | 'E' :: '+' :: rest => (false, (takeDigits rest).1)
      | 'E' :: rest => (false, (takeDigits rest).1)
      | _ => (false, [])
    let value : ℚ :=
      if expPart.2.isEmpty then mantissa
      else
        mantissa *
          (10 : ℚ) ^ (if expPart.1 then -(digitsToNat expPart.2 : ℤ) else (digitsToNat expPart.2 : ℤ))
    some (if neg then -value else value)

/-- Function `numericValue` from `lmsValidators.ts`: null is 0, numbers
pass through, strings go through `parseFloat` with NaN collapsed to 0. -/
def numericValue : CellVal → ℚ
  | .null => 0
  | .num q => q
  | .str s =>
    match jsParseFloat s with
    | some q => q
    | none => 0

/-- Function `hasPositiveAmount` from `lmsValidators.ts`. -/
def hasPositiveAmount (v : CellVal) : Bool :=
  decide (numericValue v > 0)

/-- Function `getExpectedActiveMonths` from `lmsValidators.ts`: for each of
the six window months, whether a positive amount is expected given the
effective month and the plan type. -/
def getExpectedActiveMonths (effectiveMonth : Nat) (planType : String) :
    List (LmsMonth × Bool) :=
  LMS_MONTHS.map (fun m =>
    let calMonth := lmsMonthToCal m
    if calMonth < effectiveMonth then (m, false)
    else
      let pt := lowerStr planType
      if pt == "okr" then (m, false)
      else if pt == "semi" then (m, true)
      else if pt == "qtrly" then
        let effectiveQuarterEnd := if effectiveMonth ≤ 3 then 3 else 6
        (m, decide (calMonth ≤ effectiveQuarterEnd))
      else (m, true))

/-- Issue kinds of the LMS alignment check (`LmsV2IssueType`). -/
inductive LmsV2IssueType where
  | should_be_zero
  | missing_amount
  | okr_has_amount
  | rev2_only_has_rev1
deriving DecidableEq, Repr

/-- One typed deviation of the LMS alignment check (`LmsV2Issue`). -/
structure LmsV2Issue where
  column : String
  month : LmsMonth
  issueType : LmsV2IssueType
  expectedBehavior : String
  actualValue : CellVal
deriving DecidableEq, Repr

/-- Expected-behavior string of a missing-amount issue, naming the plan
type and the effective month (`LMS_MONTHS[effectiveMonth - 1]`). -/
def missingAmountStr (planType : String) (effectiveMonth : Nat) : String :=
  "Expected amount > 0 (" ++ planType ++ ", effective from " ++
    lmsMonthName (LMS_MONTHS.getD (effectiveMonth - 1) .JAN) ++ ")"

/-- Issues pushed for one month of one revenue stream by the alignment
loop: a missing-amount issue when a positive amount was expected and
absent, and a should-be-zero (or okr-has-amount) issue when an amount was
present but not expected. -/
def streamIssuesAt (streamLabel : String) (val : CellVal) (planType : String)
    (effectiveMonth : Nat) (m : LmsMonth) (shouldHaveAmount : Bool) :
    List LmsV2Issue :=
  (if shouldHaveAmount && !hasPositiveAmount val then
    [⟨streamLabel ++ "-" ++ lmsMonthName m, m, .missing_amount,
      missingAmountStr planType effectiveMonth, val⟩]
   else []) ++
  (if !shouldHaveAmount && hasPositiveAmount val then
    (let isOkr := lowerStr planType == "okr"
     [⟨streamLabel ++ "-" ++ lmsMonthName m, m,
       (if isOkr then .okr_has_amount else .should_be_zero),
       (if isOkr then "OKR plan type should have 0 quota"
        else "Month before effective date or after quarter end should be 0"),
       val⟩])
   else [])

/-- Extra check for Rev-2-only components: any positive Rev-1 amount in a
window month is itself an issue. -/
def rev2OnlyIssueAt (rec : LmsQuotaRecord) (m : LmsMonth) : List LmsV2Issue :=
  let rev1Val := rec.rev1Monthly.get m
  if hasPositiveAmount rev1Val then
    [⟨"Rev1-" ++ lmsMonthName m, m, .rev2_only_has_rev1,
      "Rev 2 Only component should not have Rev 1 amounts (blank or 0 expected)",
      rev1Val⟩]
  else []

/-- Loop body of the alignment check for one month: Rev-1 issues, Rev-2
issues, then the Rev-2-only Rev-1 check, in source order. -/
def lmsIssuesForMonth (rec : LmsQuotaRecord) (effectiveMonth : Nat)
    (checkRev1 checkRev2 isRev2Only : Bool) (m : LmsMonth)
    (shouldHaveAmount : Bool) : List LmsV2Issue :=
  (if checkRev1 then
    streamIssuesAt "Rev1" (rec.rev1Monthly.get m) rec.planType effectiveMonth m shouldHaveAmount
   else []) ++
  (if checkRev2 then
    streamIssuesAt "Rev2" (rec.rev2Monthly.get m) rec.planType effectiveMonth m shouldHaveAmount
   else []) ++
  (if isRev2Only then rev2OnlyIssueAt rec m else [])

/-- Month index table used by the issue comparator (`monthOrder` in the
source, with `?? 0` unreachable for the six fixed months). -/
def issueMonthOrder (m : LmsMonth) : Nat := lmsMonthToCal m

/-- Comparator of the final issue sort: Rev1 columns before Rev2 columns,
then ascending month. -/
def issueLE (a b : LmsV2Issue) : Bool :=
  let aKey := if startsWithStr a.column "Rev1" then 0 else 1
  let bKey := if startsWithStr b.column "Rev1" then 0 else 1
  aKey < bKey || (aKey == bKey && issueMonthOrder a.month ≤ issueMonthOrder b.month)

/-- Component gate `checkRev1` of the alignment check. -/
def checkRev1 (component : String) : Bool :=
  component == "Non-SA" || component == "Rev 1 Only" || component == "Rev 1 & Rev 2"

/-- Component gate `checkRev2` of the alignment check. -/
def checkRev2 (component : String) : Bool :=
  component == "Rev 2 Only" || component == "Rev 1 & Rev 2"

/-- Result row of the LMS alignment check (`LmsV2Result`). -/
structure LmsV2Result where
  record : LmsQuotaRecord
  issues : List LmsV2Issue
deriving DecidableEq, Repr

/-- Unsorted issue accumulation of the alignment loop for one record at a
given effective month. -/
def lmsV2Issues (rec : LmsQuotaRecord) (effectiveMonth : Nat) : List LmsV2Issue :=
  (getExpectedActiveMonths effectiveMonth rec.planType).flatMap
    (fun p =>
      lmsIssuesForMonth rec effectiveMonth (checkRev1 rec.component)
        (checkRev2 rec.component) (rec.component == "Rev 2 Only") p.1 p.2)

/-- LMS alignment check (`V2: Quota Amount Alignment` block of
`runLmsValidation`) on one filtered record: none when the record is
skipped (placeholder eid, no effective date, or effective month past the
window) or clean; otherwise the sorted issue list. -/
def lmsV2ForRecord (rec : LmsQuotaRecord) : Option LmsV2Result :=
  if isTbhOrBlank rec.employeeId then none
  else
    match rec.quotaEffectiveDate with
    | none => none
    | some d =>
      let effectiveCalMonth := d.month
      if effectiveCalMonth > 6 then none
      else
        let effectiveMonth := max 1 effectiveCalMonth
        let issues := lmsV2Issues rec effectiveMonth
        if issues.isEmpty then none
        else some ⟨rec, issues.mergeSort issueLE⟩

/-- The `GEO_TO_REGION` table local to `runLmsValidation`. -/
def geoToRegion : String → Option Region
  | "APAC" => some .APAC
  | "EMEA" => some .EMEAL
  | "LATAM" => some .EMEAL
  | "NAMER" => some .NAMER
  | _ => none

/-- Region filter of `runLmsValidation`: placeholder eids are kept for
skip reporting; eids absent from the roster fall back to the geography
code (with "SA" force-included); otherwise some roster country must lie
in the selected region's valid set. -/
def lmsFilterKeep (refRecords : List ReferenceRecord) (validCountries : List String)
    (selectedRegion : Region) (rec : LmsQuotaRecord) : Bool :=
  if isTbhOrBlank rec.employeeId then true
  else
    let refs := refLookup refRecords rec.employeeId
    if refs.isEmpty then
      let geo := upperStr rec.geo
      if geo == "SA" then true
      else
        match geoToRegion geo with
        | some mappedRegion => mappedRegion == selectedRegion
        | none => false
    else
      refs.any (fun ref =>
        match ref.country with
        | some c => validCountries.contains c
        | none => false)

/-! Helper lemmas shared by the claim theorems. -/

theorem v1ForRecord_record (refRecords : List ReferenceRecord) (vc : List String)
    (sr : Region) (rec : QuotaRecord) :
    (v1ForRecord refRecords vc sr rec).record = rec := by
  unfold v1ForRecord
  split
  · rfl
  · dsimp only
    split
    · rfl
    · split <;> rfl

theorem v1_status_partition (l : List V1Result) :
    (l.filter (fun r => r.status == .pass)).length +
      (l.filter (fun r => r.status == .fail)).length +
      (l.filter (fun r => r.status == .skip)).length = l.length := by
  induction l with
  | nil => rfl
  | cons x xs ih =>
    simp only [List.filter_cons, List.length_cons]
    cases h : x.status <;> simp_all <;> omega

theorem mem_firstDedupAux (a : String) (l : List String) :
    ∀ seen, a ∈ firstDedupAux seen l ↔ a ∈ l ∧ a ∉ seen := by
  induction l with
  | nil => simp [firstDedupAux]
  | cons e rest ih =>
    intro seen
    rw [firstDedupAux]
    by_cases hs : seen.contains e
    · rw [if_pos hs, ih seen]
      have he : e ∈ seen := by simpa using hs
      by_cases hae : a = e
      · subst hae
        simp [he]
      · simp [hae]
    · rw [if_neg hs]
      have he : e ∉ seen := by simpa using hs
      by_cases hae : a = e
      · subst hae
        simp [he]
      · simp only [List.mem_cons, hae, false_or, ih (e :: seen)]

theorem firstDedup_mem (a : String) (l : List String) :
    a ∈ firstDedup l ↔ a ∈ l := by
  rw [firstDedup, mem_firstDedupAux]
  simp

theorem firstDedupAux_nodup (l : List String) :
    ∀ seen, (firstDedupAux seen l).Nodup := by
  induction l with
  | nil => simp [firstDedupAux]
  | cons e rest ih =>
    intro seen
    rw [firstDedupAux]
    by_cases hs : seen.contains e
    · rw [if_pos hs]
      exact ih seen
    · rw [if_neg hs]
      refine List.nodup_cons.mpr ⟨?_, ih (e :: seen)⟩
      intro hmem
      rw [mem_firstDedupAux] at hmem
      exact hmem.2 (List.mem_cons_self e seen)

theorem firstDedup_nodup (l : List String) : (firstDedup l).Nodup :=
  firstDedupAux_nodup l []

theorem nodup_filter_eq {l : List String} (hl : l.Nodup) (e : String) :
    l.filter (fun x => x == e) = if e ∈ l then [e] else [] := by
  induction l with
  | nil => simp
  | cons x xs ih =>
    rw [List.nodup_cons] at hl
    rw [List.filter_cons]
    by_cases hxe : x = e
    · subst hxe
      simp only [beq_self_eq_true, if_true, List.mem_cons, true_or, if_true]
      have : xs.filter (fun y => y == x) = [] := by
        rw [ih hl.2]
        simp [hl.1]
      simp [this]
    · have : (x == e) = false := by simp [hxe]
      rw [this, ih hl.2]
      simp only [Bool.false_eq_true, if_false, List.mem_cons]
      by_cases he : e ∈ xs <;> simp [he, Ne.symm hxe, hxe]

theorem filter_eid_nonTbh (target : List QuotaRecord) (e : String)
    (he : isTbhOrBlank e = false) :
    (target.filter (fun r => !isTbhOrBlank r.eid)).filter (fun r => r.eid == e) =
      target.filter (fun r => r.eid == e) := by
  rw [List.filter_filter]
  apply List.filter_congr
  intro r _
  by_cases h : r.eid = e
  · simp [h, he]
  · simp [h]

theorem mem_dupKeys (target : List QuotaRecord) (e : String)
    (he : isTbhOrBlank e = false) :
    (e ∈ firstDedup ((target.filter (fun r => !isTbhOrBlank r.eid)).map (·.eid))) ↔
      target.filter (fun r => r.eid == e) ≠ [] := by
  rw [firstDedup_mem, List.mem_map]
  constructor
  · rintro ⟨r, hr, hre⟩
    rw [List.mem_filter] at hr
    intro hnil
    have : r ∈ target.filter (fun r => r.eid == e) := by
      rw [List.mem_filter]
      exact ⟨hr.1, by simp [hre]⟩
    simp [hnil] at this
  · intro hne
    obtain ⟨r, hr⟩ := List.exists_mem_of_ne_nil _ hne
    rw [List.mem_filter] at hr
    have hre : r.eid = e := by simpa using hr.2
    refine ⟨r, ?_, hre⟩
    rw [List.mem_filter]
    exact ⟨hr.1, by rw [hre, he]; rfl⟩

theorem dupGroups_filter_eq (target : List QuotaRecord) (e : String)
    (he : isTbhOrBlank e = false) :
    (dupGroups target).filter (fun v => v.eid == e) =
      if 1 < (target.filter (fun r => r.eid == e)).length then
        [⟨e, target.filter (fun r => r.eid == e)⟩] else [] := by
  unfold dupGroups
  rw [List.filter_filter, List.filter_map]
  have hcomp :
      ((fun v : V2Result => (v.eid == e) && decide (1 < v.occurrences.length)) ∘
        (fun k => V2Result.mk k
          ((target.filter (fun r => !isTbhOrBlank r.eid)).filter (fun r => r.eid == k)))) =
      fun k => (k == e) &&
        decide (1 <
          ((target.filter (fun r => !isTbhOrBlank r.eid)).filter (fun r => r.eid == k)).length) := by
    funext k
    rfl
  rw [hcomp]
  have hsplit :
      List.filter (fun k => (k == e) &&
          decide (1 <
            ((target.filter (fun r => !isTbhOrBlank r.eid)).filter (fun r => r.eid == k)).length))
        (firstDedup ((target.filter (fun r => !isTbhOrBlank r.eid)).map (·.eid))) =
      List.filter (fun k =>
          decide (1 <
            ((target.filter (fun r => !isTbhOrBlank r.eid)).filter (fun r => r.eid == k)).length))
        (List.filter (fun k => k == e)
          (firstDedup ((target.filter (fun r => !isTbhOrBlank r.eid)).map (·.eid)))) := by
    rw [List.filter_filter]
    apply List.filter_congr
    intro k _
    exact Bool.and_comm _ _
  rw [hsplit, nodup_filter_eq (firstDedup_nodup _) e]
  by_cases hk : e ∈ firstDedup ((target.filter (fun r => !isTbhOrBlank r.eid)).map (·.eid))
  · rw [if_pos hk]
    rw [List.filter_cons]
    simp only [List.filter_nil]
    rw [filter_eid_nonTbh target e he]
    by_cases hlen : 1 < (target.filter (fun r => r.eid == e)).length
    · rw [if_pos (by simpa using hlen), if_pos hlen]
      simp
      rw [← List.filter_filter]
      exact filter_eid_nonTbh target e he
    · rw [if_neg (by simpa using hlen), if_neg hlen]
      simp
  · rw [if_neg hk]
    have : target.filter (fun r => r.eid == e) = [] := by
      by_contra hne
      exact hk ((mem_dupKeys target e he).mpr hne)
    rw [if_neg (by simp [this])]
    simp

theorem dupGroups_sound (target : List QuotaRecord) (v : V2Result)
    (hv : v ∈ dupGroups target) :
    isTbhOrBlank v.eid = false ∧ 1 < v.occurrences.length ∧
      v.occurrences = target.filter (fun r => r.eid == v.eid) ∧
      ∀ r ∈ v.occurrences, r ∈ target := by
  unfold dupGroups at hv
  rw [List.mem_filter, List.mem_map] at hv
  obtain ⟨⟨k, hk, hfk⟩, hlen⟩ := hv
  rw [firstDedup_mem, List.mem_map] at hk
  obtain ⟨r, hr, hre⟩ := hk
  rw [List.mem_filter] at hr
  have hkeid : v.eid = k := by rw [← hfk]
  have htbh : isTbhOrBlank k = false := by
    rw [← hre]
    simpa using hr.2
  have hocc : v.occurrences =
      (target.filter (fun r => !isTbhOrBlank r.eid)).filter (fun r => r.eid == k) := by
    rw [← hfk]
  refine ⟨hkeid ▸ htbh, by simpa using hlen, ?_, ?_⟩
  · rw [hocc, hkeid, filter_eid_nonTbh target k htbh]
  · intro x hx
    rw [hocc, List.filter_filter, List.mem_filter] at hx
    exact hx.1

theorem mem_collectMissing (vals : MonthKey → CellVal) (eff : Nat)
    (pairs : List (Nat × MonthKey)) (k : MonthKey) :
    k ∈ collectMissing vals eff pairs ↔
      ∃ cal, (cal, k) ∈ pairs ∧ eff ≤ cal ∧ isQuotaValueMissing (vals k) = true := by
  unfold collectMissing
  rw [List.mem_filterMap]
  constructor
  · rintro ⟨⟨cal, k2⟩, hmem, hf⟩
    by_cases hcond : (decide (cal ≥ eff) && isQuotaValueMissing (vals k2)) = true
    · rw [if_pos hcond] at hf
      obtain rfl : k2 = k := by simpa using hf
      simp only [Bool.and_eq_true, decide_eq_true_eq] at hcond
      exact ⟨cal, hmem, hcond.1, hcond.2⟩
    · rw [if_neg hcond] at hf
      simp at hf
  · rintro ⟨cal, hmem, hle, hmiss⟩
    refine ⟨(cal, k), hmem, ?_⟩
    simp [hle, hmiss]

theorem collectMissing_ne_nil_iff (vals : MonthKey → CellVal) (eff : Nat)
    (pairs : List (Nat × MonthKey)) :
    ((collectMissing vals eff pairs).isEmpty = false) ↔
      ∃ k cal, (cal, k) ∈ pairs ∧ eff ≤ cal ∧ isQuotaValueMissing (vals k) = true := by
  rw [List.isEmpty_eq_false_iff_exists_mem]
  constructor
  · rintro ⟨k, hk⟩
    obtain ⟨cal, h1, h2, h3⟩ := (mem_collectMissing vals eff pairs k).mp hk
    exact ⟨k, cal, h1, h2, h3⟩
  · rintro ⟨k, cal, h1, h2, h3⟩
    exact ⟨k, (mem_collectMissing vals eff pairs k).mpr ⟨cal, h1, h2, h3⟩⟩

theorem effStartOf_eq (halfYear : Nat) (isH1 : Bool) (qs : UDate)
    (hle : qs.year ≤ halfYear) :
    effStartOf halfYear isH1 qs =
      if qs.year = halfYear then max (halfStartOf isH1) qs.month
      else halfStartOf isH1 := by
  unfold effStartOf
  rcases Nat.lt_or_ge qs.year halfYear with h | h
  · simp [h, Nat.ne_of_lt h]
  · have heq : qs.year = halfYear := Nat.le_antisymm hle h
    by_cases hm : qs.month < halfStartOf isH1
    · simp [heq, hm, Nat.max_eq_left (Nat.le_of_lt hm)]
    · simp [heq, hm, Nat.max_eq_right (Nat.le_of_not_lt hm)]

theorem startsAfterHalf_false_year_le (halfYear : Nat) (isH1 : Bool) (qs : UDate)
    (h : startsAfterHalf halfYear isH1 qs = false) : qs.year ≤ halfYear := by
  unfold startsAfterHalf at h
  simp only [Bool.or_eq_false_iff] at h
  have := h.1
  simp only [decide_eq_false_iff_not, Nat.not_lt] at this
  omega

theorem v3ForRecord_skip (parsed : ParsedMonth) (rec : QuotaRecord) (qs : UDate)
    (hqs : rec.quotaStartDate = some qs)
    (hafter : startsAfterHalf parsed.year (isH1of parsed) qs = true) :
    v3ForRecord parsed rec = none := by
  unfold v3ForRecord
  rw [hqs]
  simp [hafter]

theorem v3ForRecord_not_after (parsed : ParsedMonth) (rec : QuotaRecord) (qs : UDate)
    (hqs : rec.quotaStartDate = some qs)
    (hafter : startsAfterHalf parsed.year (isH1of parsed) qs = false) :
    v3ForRecord parsed rec =
      if v3HasMissing parsed rec qs then some (v3ResultRow parsed rec qs) else none := by
  unfold v3ForRecord
  rw [hqs]
  simp [hafter]

theorem mem_v3MissingY1_iff (parsed : ParsedMonth) (rec : QuotaRecord) (qs : UDate)
    (k : MonthKey) :
    k ∈ v3MissingY1 parsed rec qs ↔
      ∃ cal, (cal, k) ∈ halfPairs (isH1of parsed) ∧
        effStartOf parsed.year (isH1of parsed) qs ≤ cal ∧
        isQuotaValueMissing (rec.monthlyQuotas.get k) = true :=
  mem_collectMissing _ _ _ k

theorem mem_v3MissingY2Y3_iff (parsed : ParsedMonth) (rec : QuotaRecord) (qs : UDate)
    (k : MonthKey) :
    k ∈ v3MissingY2Y3 parsed rec qs ↔
      ∃ q, rec.monthlyQuotasY2Y3 = some q ∧
        ∃ cal, (cal, k) ∈ halfPairs (isH1of parsed) ∧
          effStartOf parsed.year (isH1of parsed) qs ≤ cal ∧
          isQuotaValueMissing (q.get k) = true := by
  unfold v3MissingY2Y3 hasY2Y3of
  cases hb : rec.monthlyQuotasY2Y3 with
  | none => simp
  | some q =>
    have hv : (fun k => bucketVal (some q != none) (some q) k) = fun k => q.get k := by
      funext k
      simp [bucketVal]
    rw [if_pos (by simp), hv, mem_collectMissing]
    simp

theorem mem_v3MissingComp2_iff (parsed : ParsedMonth) (rec : QuotaRecord) (qs : UDate)
    (k : MonthKey) :
    k ∈ v3MissingComp2 parsed rec qs ↔
      upperStr rec.dualMetric = "DMC" ∧
        ∃ q, rec.monthlyQuotasComp2 = some q ∧
          ∃ cal, (cal, k) ∈ halfPairs (isH1of parsed) ∧
            effStartOf parsed.year (isH1of parsed) qs ≤ cal ∧
            isQuotaValueMissing (q.get k) = true := by
  unfold v3MissingComp2 hasComp2of
  by_cases hdmc : upperStr rec.dualMetric = "DMC"
  · cases hb : rec.monthlyQuotasComp2 with
    | none => simp [hdmc]
    | some q =>
      have hv : (fun k => bucketVal ((upperStr rec.dualMetric == "DMC") &&
          (some q != none)) (some q) k) = fun k => q.get k := by
        funext k
        simp [bucketVal, hdmc]
      rw [if_pos (by simp [hdmc]), hv, mem_collectMissing]
      simp [hdmc]
  · have : (upperStr rec.dualMetric == "DMC") = false := by simp [hdmc]
    simp [this, hdmc]

theorem mem_v3MissingComp2Y2Y3_iff (parsed : ParsedMonth) (rec : QuotaRecord)
    (qs : UDate) (k : MonthKey) :
    k ∈ v3MissingComp2Y2Y3 parsed rec qs ↔
      upperStr rec.dualMetric = "DMC" ∧
        ∃ q, rec.monthlyQuotasComp2Y2Y3 = some q ∧
          ∃ cal, (cal, k) ∈ halfPairs (isH1of parsed) ∧
            effStartOf parsed.year (isH1of parsed) qs ≤ cal ∧
            isQuotaValueMissing (q.get k) = true := by
  unfold v3MissingComp2Y2Y3 hasComp2Y2Y3of
  by_cases hdmc : upperStr rec.dualMetric = "DMC"
  · cases hb : rec.monthlyQuotasComp2Y2Y3 with
    | none => simp [hdmc]
    | some q =>
      have hv : (fun k => bucketVal ((upperStr rec.dualMetric == "DMC") &&
          (some q != none)) (some q) k) = fun k => q.get k := by
        funext k
        simp [bucketVal, hdmc]
      rw [if_pos (by simp [hdmc]), hv, mem_collectMissing]
      simp [hdmc]
  · have : (upperStr rec.dualMetric == "DMC") = false := by simp [hdmc]
    simp [this, hdmc]

theorem v3HasMissing_iff (parsed : ParsedMonth) (rec : QuotaRecord) (qs : UDate) :
    v3HasMissing parsed rec qs = true ↔
      ∃ k, k ∈ v3MissingY1 parsed rec qs ∨ k ∈ v3MissingY2Y3 parsed rec qs ∨
        k ∈ v3MissingComp2 parsed rec qs ∨ k ∈ v3MissingComp2Y2Y3 parsed rec qs := by
  unfold v3HasMissing
  simp only [Bool.or_eq_true, Bool.not_eq_true', List.isEmpty_eq_false_iff_exists_mem]
  constructor
  · rintro (((⟨k, hk⟩ | ⟨k, hk⟩) | ⟨k, hk⟩) | ⟨k, hk⟩)
    · exact ⟨k, Or.inl hk⟩
    · exact ⟨k, Or.inr (Or.inl hk)⟩
    · exact ⟨k, Or.inr (Or.inr (Or.inl hk))⟩
    · exact ⟨k, Or.inr (Or.inr (Or.inr hk))⟩
  · rintro ⟨k, h | h | h | h⟩
    · exact Or.inl (Or.inl (Or.inl ⟨k, h⟩))
    · exact Or.inl (Or.inl (Or.inr ⟨k, h⟩))
    · exact Or.inl (Or.inr ⟨k, h⟩)
    · exact Or.inr ⟨k, h⟩

theorem country_ok_iff (vc : List String) (ref : ReferenceRecord) :
    ((!jsTruthy ref.country || !vc.contains (ref.country.getD "")) = false) ↔
      ∃ c, ref.country = some c ∧ c ≠ "" ∧ c ∈ vc := by
  cases hc : ref.country with
  | none => simp [jsTruthy, hc]
  | some c =>
    by_cases hcc : c = ""
    · simp [jsTruthy, hc, hcc]
    · simp [jsTruthy, hc, hcc, bne]

theorem refIssues_isEmpty_iff (vc : List String) (sr : Region) (ref : ReferenceRecord) :
    (refIssues vc sr ref).isEmpty = true ↔
      (ref.activeStatus = some "Yes" ∧ jsTruthy ref.onLeave = false ∧
        ∃ c, ref.country = some c ∧ c ≠ "" ∧ c ∈ vc) := by
  rw [← country_ok_iff vc ref]
  by_cases ha : ref.activeStatus = some "Yes" <;>
    by_cases hb : jsTruthy ref.onLeave = true <;>
      by_cases hcv : (!jsTruthy ref.country || !vc.contains (ref.country.getD "")) = true <;>
        simp [refIssues, ha, hb, hcv]

theorem scanRefs_fst (vc : List String) (sr : Region) (refs : List ReferenceRecord) :
    ∀ li lr, (scanRefs vc sr li lr refs).1 =
      refs.any (fun r => (refIssues vc sr r).isEmpty) := by
  induction refs with
  | nil => intro li lr; simp [scanRefs]
  | cons r rest ih =>
    intro li lr
    simp only [scanRefs, List.any_cons]
    by_cases h : (refIssues vc sr r).isEmpty = true
    · simp [h]
    · have h2 : (refIssues vc sr r).isEmpty = false := by simpa using h
      simp [h2, ih]

theorem scanRefs_found_first (vc : List String) (sr : Region)
    (refs : List ReferenceRecord) :
    ∀ li lr, (scanRefs vc sr li lr refs).1 = true →
      (scanRefs vc sr li lr refs).2.2 =
        refs.find? (fun r => (refIssues vc sr r).isEmpty) := by
  induction refs with
  | nil => intro li lr h; simp [scanRefs] at h
  | cons r rest ih =>
    intro li lr h
    by_cases hr : (refIssues vc sr r).isEmpty = true
    · simp [scanRefs, hr, List.find?_cons_of_pos _ hr]
    · have hr2 : (refIssues vc sr r).isEmpty = false := by simpa using hr
      rw [List.find?_cons_of_neg _ (by simp [hr2])]
      simp only [scanRefs, hr2, Bool.false_eq_true, if_false] at h ⊢
      exact ih _ _ h

theorem scanRefs_none_found (vc : List String) (sr : Region)
    (refs : List ReferenceRecord) :
    ∀ (hne : refs ≠ []) li lr,
      (∀ r ∈ refs, (refIssues vc sr r).isEmpty = false) →
      (scanRefs vc sr li lr refs).1 = false ∧
      (scanRefs vc sr li lr refs).2.1 = refIssues vc sr (refs.getLast hne) ∧
      (scanRefs vc sr li lr refs).2.2 = some (refs.getLast hne) := by
  induction refs with
  | nil => intro hne; exact absurd rfl hne
  | cons r rest ih =>
    intro hne li lr hall
    have hr := hall r (List.mem_cons_self r rest)
    cases rest with
    | nil => simp [scanRefs, hr, List.getLast]
    | cons r2 rest2 =>
      have hne2 : r2 :: rest2 ≠ [] := by simp
      have hall2 : ∀ x ∈ r2 :: rest2, (refIssues vc sr x).isEmpty = false :=
        fun x hx => hall x (List.mem_cons_of_mem r hx)
      have hgl : (r :: r2 :: rest2).getLast hne = (r2 :: rest2).getLast hne2 :=
        List.getLast_cons hne2
      rw [hgl]
      simp only [scanRefs, hr, Bool.false_eq_true, if_false]
      exact ih hne2 (refIssues vc sr r) (some r) hall2

theorem mem_LMS_MONTHS (m : LmsMonth) : m ∈ LMS_MONTHS := by
  cases m <;> decide

theorem rev2_col_ne_rev1 (m : LmsMonth) :
    ("Rev2-" ++ lmsMonthName m) ≠ ("Rev1-" ++ lmsMonthName m) := by
  cases m <;> decide

set_option maxRecDepth 4096 in
theorem getExpected_qtrly_eq (ptStr : String) (hpt : lowerStr ptStr = "qtrly")
    (eff : Nat) :
    getExpectedActiveMonths eff ptStr =
      LMS_MONTHS.map (fun m =>
        (m, decide (eff ≤ lmsMonthToCal m ∧
          lmsMonthToCal m ≤ (if eff ≤ 3 then 3 else 6)))) := by
  unfold getExpectedActiveMonths
  rw [hpt]
  apply List.map_congr_left
  intro m _
  by_cases hlt : lmsMonthToCal m < eff
  · have : decide (eff ≤ lmsMonthToCal m ∧
        lmsMonthToCal m ≤ (if eff ≤ 3 then 3 else 6)) = false := by
      rw [decide_eq_false_iff_not]
      omega
    simp [hlt, this]
  · simp only [hlt, if_false]
    have : (decide (lmsMonthToCal m ≤ if eff ≤ 3 then 3 else 6)) =
        decide (eff ≤ lmsMonthToCal m ∧
          lmsMonthToCal m ≤ (if eff ≤ 3 then 3 else 6)) := by
      rw [decide_eq_decide]
      constructor
      · intro h
        exact ⟨Nat.le_of_not_lt hlt, h⟩
      · intro h
        exact h.2
    have hok : (("qtrly" : String) == "okr") = false := by decide
    have hsemi : (("qtrly" : String) == "semi") = false := by decide
    simp only [hok, hsemi, Bool.false_eq_true, if_false]
    rw [if_pos (show (("qtrly" : String) == "qtrly") = true by decide), this]

theorem mem_streamIssuesAt (lbl : String) (v : CellVal) (ptStr : String) (eff : Nat)
    (m : LmsMonth) (sh : Bool) (i : LmsV2Issue) :
    i ∈ streamIssuesAt lbl v ptStr eff m sh ↔
      ((sh = true ∧ hasPositiveAmount v = false ∧
        i = ⟨lbl ++ "-" ++ lmsMonthName m, m, .missing_amount,
          missingAmountStr ptStr eff, v⟩) ∨
       (sh = false ∧ hasPositiveAmount v = true ∧
        i = ⟨lbl ++ "-" ++ lmsMonthName m, m,
          (if lowerStr ptStr == "okr" then .okr_has_amount else .should_be_zero),
          (if lowerStr ptStr == "okr" then "OKR plan type should have 0 quota"
           else "Month before effective date or after quarter end should be 0"),
          v⟩)) := by
  cases sh <;> cases hv : hasPositiveAmount v <;>
    simp [streamIssuesAt, hv]

theorem mem_lmsIssuesForMonth (rec : LmsQuotaRecord) (eff : Nat)
    (c1 c2 r2o : Bool) (m : LmsMonth) (sh : Bool) (i : LmsV2Issue) :
    i ∈ lmsIssuesForMonth rec eff c1 c2 r2o m sh ↔
      ((c1 = true ∧
        i ∈ streamIssuesAt "Rev1" (rec.rev1Monthly.get m) rec.planType eff m sh) ∨
       (c2 = true ∧
        i ∈ streamIssuesAt "Rev2" (rec.rev2Monthly.get m) rec.planType eff m sh) ∨
       (r2o = true ∧ i ∈ rev2OnlyIssueAt rec m)) := by
  cases c1 <;> cases c2 <;> cases r2o <;> simp [lmsIssuesForMonth]

theorem rev1_issue_forMonth_iff (rec : LmsQuotaRecord) (eff : Nat) (m' : LmsMonth)
    (sh : Bool) (m : LmsMonth) (T : LmsV2IssueType)
    (hT : T = .should_be_zero ∨ T = .missing_amount)
    (hnokr : (lowerStr rec.planType == "okr") = false) :
    (∃ i ∈ lmsIssuesForMonth rec eff (checkRev1 rec.component) (checkRev2 rec.component)
        (rec.component == "Rev 2 Only") m' sh,
      i.month = m ∧ i.column = "Rev1-" ++ lmsMonthName m ∧ i.issueType = T) ↔
      (m' = m ∧ checkRev1 rec.component = true ∧
       ((T = .missing_amount ∧ sh = true ∧
          hasPositiveAmount (rec.rev1Monthly.get m) = false) ∨
        (T = .should_be_zero ∧ sh = false ∧
          hasPositiveAmount (rec.rev1Monthly.get m) = true))) := by
  constructor
  · rintro ⟨i, hi, hmonth, hcol, htype⟩
    rw [mem_lmsIssuesForMonth] at hi
    rcases hi with ⟨hc1, hi⟩ | ⟨hc2, hi⟩ | ⟨hr, hi⟩
    · rw [mem_streamIssuesAt] at hi
      rcases hi with ⟨hsh, hpos, rfl⟩ | ⟨hsh, hpos, rfl⟩
      · dsimp only at hmonth htype
        subst hmonth
        exact ⟨rfl, hc1, Or.inl ⟨htype.symm, hsh, hpos⟩⟩
      · dsimp only at hmonth htype
        subst hmonth
        rw [hnokr] at htype
        simp only [Bool.false_eq_true, if_false] at htype
        exact ⟨rfl, hc1, Or.inr ⟨htype.symm, hsh, hpos⟩⟩
    · rw [mem_streamIssuesAt] at hi
      rcases hi with ⟨hsh, hpos, rfl⟩ | ⟨hsh, hpos, rfl⟩ <;>
        (dsimp only at hmonth hcol
         subst hmonth
         exact absurd hcol (rev2_col_ne_rev1 _))
    · unfold rev2OnlyIssueAt at hi
      by_cases hp : hasPositiveAmount (rec.rev1Monthly.get m') = true
      · rw [if_pos hp] at hi
        simp only [List.mem_singleton] at hi
        subst hi
        dsimp only at htype
        rcases hT with rfl | rfl <;> simp at htype
      · rw [if_neg hp] at hi
        simp at hi
  · rintro ⟨rfl, hc1, hcase⟩
    rcases hcase with ⟨rfl, hsh, hpos⟩ | ⟨rfl, hsh, hpos⟩
    · refine ⟨⟨"Rev1-" ++ lmsMonthName m', m', .missing_amount,
        missingAmountStr rec.planType eff, rec.rev1Monthly.get m'⟩, ?_, rfl, rfl, rfl⟩
      rw [mem_lmsIssuesForMonth]
      refine Or.inl ⟨hc1, ?_⟩
      rw [mem_streamIssuesAt]
      exact Or.inl ⟨hsh, hpos, rfl⟩
    · refine ⟨⟨"Rev1-" ++ lmsMonthName m', m',
        (if lowerStr rec.planType == "okr" then .okr_has_amount else .should_be_zero),
        (if lowerStr rec.planType == "okr" then "OKR plan type should have 0 quota"
         else "Month before effective date or after quarter end should be 0"),
        rec.rev1Monthly.get m'⟩, ?_, rfl, rfl, ?_⟩
      · rw [mem_lmsIssuesForMonth]
        refine Or.inl ⟨hc1, ?_⟩
        rw [mem_streamIssuesAt]
        exact Or.inr ⟨hsh, hpos, rfl⟩
      · dsimp only
        rw [hnokr]
        simp

/-! Concrete inputs used by witnesses and counterexamples. -/

/-- Monthly map holding the same cell in all twelve months. -/
def mqAll (v : CellVal) : MonthlyQuotas :=
  ⟨v, v, v, v, v, v, v, v, v, v, v, v⟩

/-- Sample quota record in period Jan-26. -/
def wRecA : QuotaRecord :=
  { sheet := "IC Quota", row := 7, eid := "E1", name := "Alice", level := "L3",
    repRegion := "APAC", dualMetric := "SMC", quotaStartDate := none,
    submissionMonth := some ⟨2026, 1⟩, monthlyQuotas := mqAll (.num 10),
    monthlyQuotasY2Y3 := none, monthlyQuotasComp2 := none,
    monthlyQuotasComp2Y2Y3 := none }

/-- Second record sharing the eid of `wRecA` in the same period. -/
def wRecB : QuotaRecord :=
  { wRecA with sheet := "MGR Quota", row := 9, name := "Alice2" }

/-- Full run result on `[wRecA, wRecB]` with an empty roster. -/
def wRunAB : ValidationResults :=
  { v1 := [⟨wRecA, .fail, "EID not found in reference file", none⟩,
           ⟨wRecB, .fail, "EID not found in reference file", none⟩],
    v2 := [⟨"E1", [wRecA, wRecB]⟩],
    v3 := [],
    summary := ⟨0, 2, 0, 1, 0, 2⟩ }

theorem monthAbbrevIndex_isSome_iff (s : String) :
    (monthAbbrevIndex s).isSome = true ↔ s ∈ MONTH_ABBREVS := by
  unfold monthAbbrevIndex
  split <;> simp_all [MONTH_ABBREVS]

theorem monthAbbrevIndex_bounds (s : String) (m : Nat)
    (h : monthAbbrevIndex s = some m) : 1 ≤ m ∧ m ≤ 12 := by
  unfold monthAbbrevIndex at h
  split at h <;> simp_all <;> omega

theorem parse_isSome_iff (label : String) :
    (parseSubmissionMonthLabel label).isSome = true ↔ matchesMonthLabelFormat label := by
  unfold parseSubmissionMonthLabel
  rcases hd : label.data with _ | ⟨a, _ | ⟨b, _ | ⟨c, _ | ⟨d, _ | ⟨e, _ | ⟨f, _ | ⟨g, t⟩⟩⟩⟩⟩⟩⟩
  all_goals simp only [matchesMonthLabelFormat, hd]
  all_goals try (simp; done)
  by_cases hdash : d = '-'
  · subst hdash
    by_cases he : e.isDigit = true <;> by_cases hf : f.isDigit = true
    · cases habb : monthAbbrevIndex (String.mk [a.toLower, b.toLower, c.toLower]) with
      | none =>
        have hmem := monthAbbrevIndex_isSome_iff (String.mk [a.toLower, b.toLower, c.toLower])
        rw [habb] at hmem
        simp only [Option.isSome_none, Bool.false_eq_true, false_iff] at hmem
        simp [habb, he, hf, hmem]
        intros
        simp_all
      | some m =>
        have hmem := monthAbbrevIndex_isSome_iff (String.mk [a.toLower, b.toLower, c.toLower])
        rw [habb] at hmem
        simp only [Option.isSome_some, true_iff] at hmem
        constructor
        · intro _
          exact ⟨a, b, c, e, f, by simp, hmem, he, hf⟩
        · intro _
          simp [habb, he, hf]
    · simp [he, hf]
      intros
      simp_all
    · simp [he, hf]
      intros
      simp_all
    · simp [he, hf]
      intros
      simp_all
  · simp [hdash]

/-! Claim theorems. -/

/-- C8: in the duplicate-identity check, any non-placeholder identifier
shared by more than one record of the selected submission period yields
exactly one duplicate group holding exactly those records; an identifier
occurring once yields no group, placeholder identifiers are never grouped,
and every grouped record matches the selected period. -/
theorem c8_duplicate_groups (allRecords : List QuotaRecord)
    (refRecords : List ReferenceRecord) (label : String) (region : Region)
    (parsed : ParsedMonth) (res : ValidationResults) (e : String)
    (hparse : parseSubmissionMonthLabel label = some parsed)
    (hrun : runValidation allRecords refRecords label region = .ok res)
    (he : isTbhOrBlank e = false) :
    (res.v2.filter (fun v => v.eid == e) =
      if 1 < ((allRecords.filter (periodMatches parsed)).filter
          (fun r => r.eid == e)).length then
        [⟨e, (allRecords.filter (periodMatches parsed)).filter (fun r => r.eid == e)⟩]
      else []) ∧
    (∀ v ∈ res.v2, isTbhOrBlank v.eid = false ∧ 1 < v.occurrences.length ∧
      ∀ r ∈ v.occurrences, r ∈ allRecords.filter (periodMatches parsed)) := by
  have hv2 : res.v2 = dupGroups (allRecords.filter (periodMatches parsed)) := by
    unfold runValidation at hrun
    rw [hparse] at hrun
    simp only [Except.ok.injEq] at hrun
    subst hrun
    rfl
  rw [hv2]
  refine ⟨dupGroups_filter_eq _ e he, ?_⟩
  intro v hv
  obtain ⟨h1, h2, _, h4⟩ := dupGroups_sound _ v hv
  exact ⟨h1, h2, h4⟩

/-- Witness for C8 at a concrete duplicated pair of records. -/
theorem c8_duplicate_groups_witness :
    (wRunAB.v2.filter (fun v => v.eid == "E1") =
      if 1 < (([wRecA, wRecB].filter (periodMatches ⟨2026, 1⟩)).filter
          (fun r => r.eid == "E1")).length then
        [⟨"E1", ([wRecA, wRecB].filter (periodMatches ⟨2026, 1⟩)).filter
          (fun r => r.eid == "E1")⟩]
      else []) ∧
    (∀ v ∈ wRunAB.v2, isTbhOrBlank v.eid = false ∧ 1 < v.occurrences.length ∧
      ∀ r ∈ v.occurrences, r ∈ [wRecA, wRecB].filter (periodMatches ⟨2026, 1⟩)) :=
  c8_duplicate_groups [wRecA, wRecB] [] "Jan-26" .APAC ⟨2026, 1⟩ wRunAB "E1"
    rfl rfl (by decide)

/-- Roster entry filed under the placeholder identifier "-". -/
def dashRosterRec : ReferenceRecord :=
  ⟨"-", "Unknown", some "Yes", none, some "Japan", none⟩

/-- Quota record with the placeholder identifier "-". -/
def dashQuotaRec : QuotaRecord :=
  { wRecA with eid := "-", repRegion := "NAMER" }

/-- C2 counterexample: a record whose identifier IS a placeholder ("-")
can have a roster entry with a country in the selected region's valid set,
yet the overlay resolver tags it "unknown" (placeholder identity), not
"scr" — so the claim without a non-placeholder hypothesis is false. -/
theorem c2_counterexample :
    (∃ ref ∈ refLookup [dashRosterRec] dashQuotaRec.eid,
      ∃ c, ref.country = some c ∧ c ∈ getCountriesForRegion .APAC) ∧
    ¬((resolveRegion dashQuotaRec [dashRosterRec]
        (getCountriesForRegion .APAC) .APAC).2.matchType = .scr) := by
  decide

/-- C2 (amended: the record's identifier must not be a placeholder, since
placeholder identities resolve first with the "unknown" tag): a
non-placeholder identifier with a roster entry whose country lies in the
selected region's valid-country set is included with the
roster-country-match tag, regardless of the record's region hint. -/
theorem c2_roster_match_takes_precedence (rec : QuotaRecord)
    (refRecords : List ReferenceRecord) (region : Region)
    (hne : isTbhOrBlank rec.eid = false)
    (hmatch : ∃ ref ∈ refLookup refRecords rec.eid,
      ∃ c, ref.country = some c ∧ c ∈ getCountriesForRegion region) :
    (resolveRegion rec refRecords (getCountriesForRegion region) region).1 = true ∧
    (resolveRegion rec refRecords (getCountriesForRegion region) region).2.matchType =
      .scr := by
  unfold resolveRegion
  simp only [hne, Bool.false_eq_true, if_false]
  obtain ⟨ref, href, c, hc, hcmem⟩ := hmatch
  cases hlookup : refLookup refRecords rec.eid with
  | nil =>
    rw [hlookup] at href
    simp at href
  | cons firstRef rest =>
    rw [hlookup] at href
    dsimp only
    have hfind : ((firstRef :: rest).find? (fun ref =>
        match ref.country with
        | some c => (getCountriesForRegion region).contains c
        | none => false)).isSome = true := by
      rw [List.find?_isSome]
      refine ⟨ref, href, ?_⟩
      rw [hc]
      simpa using hcmem
    obtain ⟨r, hr⟩ := Option.isSome_iff_exists.mp hfind
    rw [hr]
    exact ⟨rfl, rfl⟩

/-- Roster entry for eid E1 with an APAC country. -/
def wRefJapan : ReferenceRecord :=
  ⟨"E1", "Alice", some "Yes", none, some "Japan", none⟩

/-- Quota record for E1 whose region hint would resolve to NAMER. -/
def wRecHintNamer : QuotaRecord :=
  { wRecA with repRegion := "NAMER" }

/-- Witness for the amended C2: the roster country match overrides a
NAMER region hint. -/
theorem c2_roster_match_takes_precedence_witness :
    (resolveRegion wRecHintNamer [wRefJapan] (getCountriesForRegion .APAC) .APAC).1 =
      true ∧
    (resolveRegion wRecHintNamer [wRefJapan]
      (getCountriesForRegion .APAC) .APAC).2.matchType = .scr :=
  c2_roster_match_takes_precedence wRecHintNamer [wRefJapan] .APAC (by decide)
    ⟨wRefJapan, by decide, "Japan", rfl, by decide⟩

/-- Baseline LMS record used by witnesses and counterexamples. -/
def lmsBase : LmsQuotaRecord :=
  { row := 2, name := "Bob", employeeId := "E7", managerId := "M1",
    managerName := "Mgr", geo := "APAC", tier := "T1", segment := "Seg",
    sdGroup := "G", team := "T", component := "Non-SA", planType := "Semi",
    recentEvent := "", quotaEffectiveDate := some ⟨2026, 1⟩, notes := "",
    q3Quota := .null, q4Quota := .null, h2Quota := .null,
    rev1Monthly := ⟨.num 100, .num 100, .num 100, .num 100, .num 100, .num 100⟩,
    q3GlobalQuota := .null, q4GlobalQuota := .null, h2GlobalQuota := .null,
    rev2Monthly := ⟨.null, .null, .null, .null, .null, .null⟩,
    bookCountMonthly := ⟨.null, .null, .null, .null, .null, .null⟩ }

/-- LMS record with the placeholder identifier "-". -/
def dashLmsRec : LmsQuotaRecord :=
  { lmsBase with employeeId := "-", geo := "LATAM" }

/-- Roster entry filed under "-" with an EMEAL country. -/
def frDashRoster : ReferenceRecord :=
  ⟨"-", "Unknown", some "Yes", none, some "France", none⟩

/-- C7 counterexample: a record whose placeholder identifier "-" has
roster entries (none in the selected region) is still included by the LMS
region filter, so "included iff some entry's country lies in the valid
set" fails without a non-placeholder hypothesis. -/
theorem c7_counterexample :
    refLookup [frDashRoster] dashLmsRec.employeeId ≠ [] ∧
    lmsFilterKeep [frDashRoster] (getCountriesForRegion .APAC) .APAC dashLmsRec =
      true ∧
    ¬(∃ ref ∈ refLookup [frDashRoster] dashLmsRec.employeeId,
      ∃ c, ref.country = some c ∧ c ∈ getCountriesForRegion .APAC) := by
  decide

/-- C7 (amended: both halves require a non-placeholder identifier, since
placeholder identities are force-kept for skip reporting): with no roster
entry the record is included iff its geography code is SA or maps to the
selected region; with roster entries it is included iff some entry's
country lies in the selected region's valid set. -/
theorem c7_lms_region_filter (refRecords : List ReferenceRecord) (region : Region)
    (rec : LmsQuotaRecord) (hne : isTbhOrBlank rec.employeeId = false) :
    (refLookup refRecords rec.employeeId = [] →
      (lmsFilterKeep refRecords (getCountriesForRegion region) region rec = true ↔
        upperStr rec.geo = "SA" ∨ geoToRegion (upperStr rec.geo) = some region)) ∧
    (refLookup refRecords rec.employeeId ≠ [] →
      (lmsFilterKeep refRecords (getCountriesForRegion region) region rec = true ↔
        ∃ ref ∈ refLookup refRecords rec.employeeId,
          ∃ c, ref.country = some c ∧ c ∈ getCountriesForRegion region)) := by
  unfold lmsFilterKeep
  simp only [hne, Bool.false_eq_true, if_false]
  constructor
  · intro hempty
    rw [hempty]
    by_cases hsa : upperStr rec.geo = "SA"
    · simp [hsa]
    · have hsa2 : (upperStr rec.geo == "SA") = false := by simp [hsa]
      cases hgeo : geoToRegion (upperStr rec.geo) with
      | none => simp [hsa2, hsa, hgeo]
      | some m =>
        simp only [List.isEmpty_nil, if_true, hsa2, Bool.false_eq_true, if_false, hgeo, hsa,
          false_or]
        constructor
        · intro hm
          have : m = region := by simpa using hm
          rw [this]
        · intro hm
          simp only [Option.some.injEq] at hm
          simp [hm]
  · intro hne2
    have hemp : (refLookup refRecords rec.employeeId).isEmpty = false := by
      simpa using hne2
    rw [hemp]
    simp only [Bool.false_eq_true, if_false]
    rw [List.any_eq_true]
    constructor
    · rintro ⟨ref, href, hpred⟩
      cases hctry : ref.country with
      | none =>
        rw [hctry] at hpred
        simp at hpred
      | some c =>
        rw [hctry] at hpred
        exact ⟨ref, href, c, hctry, by simpa using hpred⟩
    · rintro ⟨ref, href, c, hc, hcmem⟩
      refine ⟨ref, href, ?_⟩
      rw [hc]
      simpa using hcmem

/-- Roster entry for the LMS base record's eid. -/
def wLmsRoster : ReferenceRecord :=
  ⟨"E7", "Bob", some "Yes", none, some "Japan", none⟩

/-- Witness for the amended C7: roster branch at a Japan roster entry and
geography branch at an absent eid. -/
theorem c7_lms_region_filter_witness :
    (lmsFilterKeep [wLmsRoster] (getCountriesForRegion .APAC) .APAC lmsBase = true ↔
      ∃ ref ∈ refLookup [wLmsRoster] lmsBase.employeeId,
        ∃ c, ref.country = some c ∧ c ∈ getCountriesForRegion .APAC) ∧
    (lmsFilterKeep [] (getCountriesForRegion .APAC) .APAC lmsBase = true ↔
      upperStr lmsBase.geo = "SA" ∨
        geoToRegion (upperStr lmsBase.geo) = some .APAC) :=
  ⟨(c7_lms_region_filter [wLmsRoster] .APAC lmsBase (by decide)).2 (by decide),
   (c7_lms_region_filter [] .APAC lmsBase (by decide)).1 (by decide)⟩

/-- C1: for a period record with a non-placeholder identifier that has
roster entries, Check 1 passes iff some roster entry has active status
exactly "Yes", a blank on-leave field, and a non-blank country in the
selected region's valid set; the first such entry is the recorded
evidence, and when none qualifies the verdict is "fail" with the joined
violation list of the last examined entry. -/
theorem c1_identity_check (refRecords : List ReferenceRecord) (region : Region)
    (rec : QuotaRecord) (hne : isTbhOrBlank rec.eid = false)
    (hrefs : refLookup refRecords rec.eid ≠ []) :
    ((v1ForRecord refRecords (getCountriesForRegion region) region rec).status = .pass ↔
      ∃ ref ∈ refLookup refRecords rec.eid,
        ref.activeStatus = some "Yes" ∧ jsTruthy ref.onLeave = false ∧
          ∃ c, ref.country = some c ∧ c ≠ "" ∧ c ∈ getCountriesForRegion region) ∧
    ((v1ForRecord refRecords (getCountriesForRegion region) region rec).status = .pass →
      (v1ForRecord refRecords (getCountriesForRegion region) region rec).refInfo =
        ((refLookup refRecords rec.eid).find?
          (fun r => (refIssues (getCountriesForRegion region) region r).isEmpty)).map
          refInfoOf) ∧
    ((¬∃ ref ∈ refLookup refRecords rec.eid,
        ref.activeStatus = some "Yes" ∧ jsTruthy ref.onLeave = false ∧
          ∃ c, ref.country = some c ∧ c ≠ "" ∧ c ∈ getCountriesForRegion region) →
      (v1ForRecord refRecords (getCountriesForRegion region) region rec).status = .fail ∧
      (v1ForRecord refRecords (getCountriesForRegion region) region rec).reason =
        intercalateStr "; " (refIssues (getCountriesForRegion region) region
          ((refLookup refRecords rec.eid).getLast hrefs))) := by
  have hempt : (refLookup refRecords rec.eid).isEmpty = false := by
    simpa using hrefs
  have hscan1 := scanRefs_fst (getCountriesForRegion region) region
    (refLookup refRecords rec.eid) [] none
  have hany : (refLookup refRecords rec.eid).any
      (fun r => (refIssues (getCountriesForRegion region) region r).isEmpty) = true ↔
      ∃ ref ∈ refLookup refRecords rec.eid,
        ref.activeStatus = some "Yes" ∧ jsTruthy ref.onLeave = false ∧
          ∃ c, ref.country = some c ∧ c ≠ "" ∧ c ∈ getCountriesForRegion region := by
    rw [List.any_eq_true]
    constructor
    · rintro ⟨r, hr, hp⟩
      exact ⟨r, hr, (refIssues_isEmpty_iff _ _ r).mp hp⟩
    · rintro ⟨r, hr, hp⟩
      exact ⟨r, hr, (refIssues_isEmpty_iff _ _ r).mpr hp⟩
  unfold v1ForRecord
  simp only [hne, Bool.false_eq_true, if_false, hempt]
  by_cases hfound : (scanRefs (getCountriesForRegion region) region [] none
      (refLookup refRecords rec.eid)).1 = true
  · rw [hscan1] at hfound
    have hfound2 : (scanRefs (getCountriesForRegion region) region [] none
        (refLookup refRecords rec.eid)).1 = true := by rw [hscan1]; exact hfound
    simp only [hfound2, if_true]
    refine ⟨?_, ?_, ?_⟩
    · exact iff_of_true (by trivial) (hany.mp hfound)
    · intro _
      have hff := scanRefs_found_first (getCountriesForRegion region) region
        (refLookup refRecords rec.eid) [] none hfound2
      rw [hff]
    · intro hnex
      exact absurd (hany.mp hfound) hnex
  · have hfound2 : (scanRefs (getCountriesForRegion region) region [] none
        (refLookup refRecords rec.eid)).1 = false := by
      simpa using hfound
    have hanyf : (refLookup refRecords rec.eid).any
        (fun r => (refIssues (getCountriesForRegion region) region r).isEmpty) = false := by
      rw [← hscan1]
      exact hfound2
    have hnall : ∀ r ∈ refLookup refRecords rec.eid,
        (refIssues (getCountriesForRegion region) region r).isEmpty = false := by
      intro r hr
      by_contra hcon
      have hcon2 : (refIssues (getCountriesForRegion region) region r).isEmpty = true := by
        simpa using hcon
      have h3 : (refLookup refRecords rec.eid).any
          (fun r => (refIssues (getCountriesForRegion region) region r).isEmpty) = true :=
        List.any_eq_true.mpr ⟨r, hr, hcon2⟩
      rw [hanyf] at h3
      simp at h3
    obtain ⟨_, hlast1, _⟩ := scanRefs_none_found (getCountriesForRegion region) region
      (refLookup refRecords rec.eid) hrefs [] none hnall
    simp only [hfound2, Bool.false_eq_true, if_false]
    refine ⟨?_, ?_, ?_⟩
    · refine iff_of_false (by simp) ?_
      rw [← hany, hanyf]
      simp
    · intro hp
      simp at hp
    · intro _
      refine ⟨by trivial, ?_⟩
      rw [hlast1]

/-- Witness for C1: pass on a Japan roster entry under region APAC. -/
theorem c1_identity_check_witness :
    ((v1ForRecord [wRefJapan] (getCountriesForRegion .APAC) .APAC wRecHintNamer).status =
        .pass ↔
      ∃ ref ∈ refLookup [wRefJapan] wRecHintNamer.eid,
        ref.activeStatus = some "Yes" ∧ jsTruthy ref.onLeave = false ∧
          ∃ c, ref.country = some c ∧ c ≠ "" ∧ c ∈ getCountriesForRegion .APAC) ∧
    ((v1ForRecord [wRefJapan] (getCountriesForRegion .APAC) .APAC wRecHintNamer).status =
        .pass →
      (v1ForRecord [wRefJapan] (getCountriesForRegion .APAC) .APAC wRecHintNamer).refInfo =
        ((refLookup [wRefJapan] wRecHintNamer.eid).find?
          (fun r => (refIssues (getCountriesForRegion .APAC) .APAC r).isEmpty)).map
          refInfoOf) ∧
    ((¬∃ ref ∈ refLookup [wRefJapan] wRecHintNamer.eid,
        ref.activeStatus = some "Yes" ∧ jsTruthy ref.onLeave = false ∧
          ∃ c, ref.country = some c ∧ c ≠ "" ∧ c ∈ getCountriesForRegion .APAC) →
      (v1ForRecord [wRefJapan] (getCountriesForRegion .APAC) .APAC wRecHintNamer).status =
        .fail ∧
      (v1ForRecord [wRefJapan] (getCountriesForRegion .APAC) .APAC wRecHintNamer).reason =
        intercalateStr "; " (refIssues (getCountriesForRegion .APAC) .APAC
          ((refLookup [wRefJapan] wRecHintNamer.eid).getLast (by decide)))) :=
  c1_identity_check [wRefJapan] .APAC wRecHintNamer (by decide) (by decide)

/-- C3: a record whose quota start falls after the end of the selected
half is excluded entirely; otherwise the effective start month is the
maximum of the half's first month and the start month when the start is in
the half's year (else the half's first month), each checked bucket's
missing list holds exactly the months at or past the effective start whose
value is missing (null, blank/dash, or zero), and the record appears in
Check 3's results iff some checked bucket has a missing month. -/
theorem c3_check3_characterization (parsed : ParsedMonth) (rec : QuotaRecord)
    (qs : UDate) (hqs : rec.quotaStartDate = some qs) :
    (startsAfterHalf parsed.year (isH1of parsed) qs = true →
      v3ForRecord parsed rec = none) ∧
    (startsAfterHalf parsed.year (isH1of parsed) qs = false →
      effStartOf parsed.year (isH1of parsed) qs =
        (if qs.year = parsed.year then max (halfStartOf (isH1of parsed)) qs.month
         else halfStartOf (isH1of parsed)) ∧
      (∀ res, v3ForRecord parsed rec = some res →
        res.record = rec ∧
        (∀ k, k ∈ res.missingMonths ↔
          ∃ cal, (cal, k) ∈ halfPairs (isH1of parsed) ∧
            effStartOf parsed.year (isH1of parsed) qs ≤ cal ∧
            isQuotaValueMissing (rec.monthlyQuotas.get k) = true) ∧
        (∀ k, k ∈ res.missingMonthsY2Y3 ↔
          ∃ q, rec.monthlyQuotasY2Y3 = some q ∧
            ∃ cal, (cal, k) ∈ halfPairs (isH1of parsed) ∧
              effStartOf parsed.year (isH1of parsed) qs ≤ cal ∧
              isQuotaValueMissing (q.get k) = true) ∧
        (∀ k, k ∈ res.missingMonthsComp2 ↔
          upperStr rec.dualMetric = "DMC" ∧
            ∃ q, rec.monthlyQuotasComp2 = some q ∧
              ∃ cal, (cal, k) ∈ halfPairs (isH1of parsed) ∧
                effStartOf parsed.year (isH1of parsed) qs ≤ cal ∧
                isQuotaValueMissing (q.get k) = true) ∧
        (∀ k, k ∈ res.missingMonthsComp2Y2Y3 ↔
          upperStr rec.dualMetric = "DMC" ∧
            ∃ q, rec.monthlyQuotasComp2Y2Y3 = some q ∧
              ∃ cal, (cal, k) ∈ halfPairs (isH1of parsed) ∧
                effStartOf parsed.year (isH1of parsed) qs ≤ cal ∧
                isQuotaValueMissing (q.get k) = true)) ∧
      ((∃ res, v3ForRecord parsed rec = some res) ↔
        ∃ k cal, (cal, k) ∈ halfPairs (isH1of parsed) ∧
          effStartOf parsed.year (isH1of parsed) qs ≤ cal ∧
          (isQuotaValueMissing (rec.monthlyQuotas.get k) = true ∨
           (∃ q, rec.monthlyQuotasY2Y3 = some q ∧
             isQuotaValueMissing (q.get k) = true) ∨
           (upperStr rec.dualMetric = "DMC" ∧
             ((∃ q, rec.monthlyQuotasComp2 = some q ∧
                isQuotaValueMissing (q.get k) = true) ∨
              (∃ q, rec.monthlyQuotasComp2Y2Y3 = some q ∧
                isQuotaValueMissing (q.get k) = true)))))) := by
  refine ⟨fun hafter => v3ForRecord_skip parsed rec qs hqs hafter, fun hafter => ?_⟩
  have hyle := startsAfterHalf_false_year_le parsed.year (isH1of parsed) qs hafter
  refine ⟨effStartOf_eq parsed.year (isH1of parsed) qs hyle, ?_, ?_⟩
  · intro res hres
    rw [v3ForRecord_not_after parsed rec qs hqs hafter] at hres
    by_cases hM : v3HasMissing parsed rec qs = true
    · rw [if_pos hM] at hres
      simp only [Option.some.injEq] at hres
      subst hres
      exact ⟨rfl, fun k => mem_v3MissingY1_iff parsed rec qs k,
        fun k => mem_v3MissingY2Y3_iff parsed rec qs k,
        fun k => mem_v3MissingComp2_iff parsed rec qs k,
        fun k => mem_v3MissingComp2Y2Y3_iff parsed rec qs k⟩
    · rw [if_neg hM] at hres
      simp at hres
  · rw [v3ForRecord_not_after parsed rec qs hqs hafter]
    constructor
    · rintro ⟨res, hres⟩
      by_cases hM : v3HasMissing parsed rec qs = true
      · obtain ⟨k, hk⟩ := (v3HasMissing_iff parsed rec qs).mp hM
        rcases hk with hk | hk | hk | hk
        · obtain ⟨cal, h1, h2, h3⟩ := (mem_v3MissingY1_iff parsed rec qs k).mp hk
          exact ⟨k, cal, h1, h2, Or.inl h3⟩
        · obtain ⟨q, hq, cal, h1, h2, h3⟩ :=
            (mem_v3MissingY2Y3_iff parsed rec qs k).mp hk
          exact ⟨k, cal, h1, h2, Or.inr (Or.inl ⟨q, hq, h3⟩)⟩
        · obtain ⟨hdmc, q, hq, cal, h1, h2, h3⟩ :=
            (mem_v3MissingComp2_iff parsed rec qs k).mp hk
          exact ⟨k, cal, h1, h2, Or.inr (Or.inr ⟨hdmc, Or.inl ⟨q, hq, h3⟩⟩)⟩
        · obtain ⟨hdmc, q, hq, cal, h1, h2, h3⟩ :=
            (mem_v3MissingComp2Y2Y3_iff parsed rec qs k).mp hk
          exact ⟨k, cal, h1, h2, Or.inr (Or.inr ⟨hdmc, Or.inr ⟨q, hq, h3⟩⟩)⟩
      · rw [if_neg hM] at hres
        simp at hres
    · rintro ⟨k, cal, h1, h2, hdisj⟩
      have hM : v3HasMissing parsed rec qs = true := by
        rw [v3HasMissing_iff]
        rcases hdisj with h3 | ⟨q, hq, h3⟩ | ⟨hdmc, ⟨q, hq, h3⟩ | ⟨q, hq, h3⟩⟩
        · exact ⟨k, Or.inl ((mem_v3MissingY1_iff parsed rec qs k).mpr ⟨cal, h1, h2, h3⟩)⟩
        · exact ⟨k, Or.inr (Or.inl
            ((mem_v3MissingY2Y3_iff parsed rec qs k).mpr ⟨q, hq, cal, h1, h2, h3⟩))⟩
        · exact ⟨k, Or.inr (Or.inr (Or.inl
            ((mem_v3MissingComp2_iff parsed rec qs k).mpr ⟨hdmc, q, hq, cal, h1, h2, h3⟩)))⟩
        · exact ⟨k, Or.inr (Or.inr (Or.inr
            ((mem_v3MissingComp2Y2Y3_iff parsed rec qs k).mpr
              ⟨hdmc, q, hq, cal, h1, h2, h3⟩)))⟩
      rw [if_pos hM]
      exact ⟨_, rfl⟩

/-- H1 monthly map with September, October and November at zero. -/
def wSepMq : MonthlyQuotas :=
  ⟨.num 100, .num 100, .num 0, .num 0, .num 0, .num 100,
   .null, .null, .null, .null, .null, .null⟩

/-- Quota record starting September 2025 inside half H1 of 2025. -/
def wRec4 : QuotaRecord :=
  { wRecA with
    quotaStartDate := some (UDate.mk 2025 9)
    submissionMonth := some (UDate.mk 2025 10)
    monthlyQuotas := wSepMq }

/-- Witness for C3: the skip branch at a start after the half and the
effective-start equation inside the half. -/
theorem c3_check3_characterization_witness :
    v3ForRecord ⟨2024, 10⟩ wRec4 = none ∧
    effStartOf (ParsedMonth.mk 2025 10).year (isH1of ⟨2025, 10⟩) ⟨2025, 9⟩ =
      (if (UDate.mk 2025 9).year = (ParsedMonth.mk 2025 10).year then
        max (halfStartOf (isH1of ⟨2025, 10⟩)) (UDate.mk 2025 9).month
      else halfStartOf (isH1of ⟨2025, 10⟩)) :=
  ⟨(c3_check3_characterization ⟨2024, 10⟩ wRec4 ⟨2025, 9⟩ rfl).1 (by decide),
   ((c3_check3_characterization ⟨2025, 10⟩ wRec4 ⟨2025, 9⟩ rfl).2 (by decide)).1⟩

/-- C4 counterexample: with quota start in September (month 9) of the
half's year and half H1, September IS checked — its calendar index equals
the effective start month — so a zero September value appears in the
missing-months list, contrary to the claim that July through September
are not checked. -/
theorem c4_counterexample :
    wRec4.quotaStartDate = some ⟨2025, 9⟩ ∧
    wRec4.monthlyQuotas.get .SEP = .num 0 ∧
    ∃ res, v3ForRecord ⟨2025, 10⟩ wRec4 = some res ∧ .SEP ∈ res.missingMonths :=
  ⟨rfl, rfl, v3ResultRow ⟨2025, 10⟩ wRec4 ⟨2025, 9⟩, rfl, by decide⟩

/-- C4 (amended: only July and August fall before the effective start and
are not checked; September, being the effective start month itself, is
checked, so a zero September value does appear): with quota start in
month 9 of the half's year, half H1, and zero October and November
primary-Y1 amounts, both October and November are reported missing, July
and August are never reported, and a missing September value is
reported. -/
theorem c4_effective_start_months (parsed : ParsedMonth) (rec : QuotaRecord)
    (hqs : rec.quotaStartDate = some ⟨parsed.year, 9⟩)
    (hm : 7 ≤ parsed.month)
    (hoct : rec.monthlyQuotas.get .OCT = .num 0)
    (hnov : rec.monthlyQuotas.get .NOV = .num 0) :
    ∃ res, v3ForRecord parsed rec = some res ∧
      .OCT ∈ res.missingMonths ∧ .NOV ∈ res.missingMonths ∧
      .JUL ∉ res.missingMonths ∧ .AUG ∉ res.missingMonths ∧
      (isQuotaValueMissing (rec.monthlyQuotas.get .SEP) = true →
        .SEP ∈ res.missingMonths) := by
  have hH1 : isH1of parsed = true := by
    simp [isH1of, hm]
  have hafter : startsAfterHalf parsed.year (isH1of parsed) ⟨parsed.year, 9⟩ = false := by
    rw [hH1]
    simp [startsAfterHalf, halfEndOf]
  have heff : effStartOf parsed.year (isH1of parsed) ⟨parsed.year, 9⟩ = 9 := by
    rw [hH1]
    simp [effStartOf, halfStartOf]
  have hOct : MonthKey.OCT ∈ v3MissingY1 parsed rec ⟨parsed.year, 9⟩ := by
    refine (mem_v3MissingY1_iff parsed rec ⟨parsed.year, 9⟩ .OCT).mpr ⟨10, ?_, ?_, ?_⟩
    · rw [hH1]
      decide
    · rw [heff]
      omega
    · rw [hoct]
      decide
  have hNov : MonthKey.NOV ∈ v3MissingY1 parsed rec ⟨parsed.year, 9⟩ := by
    refine (mem_v3MissingY1_iff parsed rec ⟨parsed.year, 9⟩ .NOV).mpr ⟨11, ?_, ?_, ?_⟩
    · rw [hH1]
      decide
    · rw [heff]
      omega
    · rw [hnov]
      decide
  have hM : v3HasMissing parsed rec ⟨parsed.year, 9⟩ = true :=
    (v3HasMissing_iff parsed rec ⟨parsed.year, 9⟩).mpr ⟨.OCT, Or.inl hOct⟩
  refine ⟨v3ResultRow parsed rec ⟨parsed.year, 9⟩, ?_, hOct, hNov, ?_, ?_, ?_⟩
  · rw [v3ForRecord_not_after parsed rec ⟨parsed.year, 9⟩ hqs hafter, if_pos hM]
  · intro hmem
    obtain ⟨cal, hpair, hle, _⟩ :=
      (mem_v3MissingY1_iff parsed rec ⟨parsed.year, 9⟩ .JUL).mp hmem
    rw [hH1] at hpair
    rw [heff] at hle
    have : cal = 7 := by
      simp [halfPairs] at hpair
      exact hpair
    omega
  · intro hmem
    obtain ⟨cal, hpair, hle, _⟩ :=
      (mem_v3MissingY1_iff parsed rec ⟨parsed.year, 9⟩ .AUG).mp hmem
    rw [hH1] at hpair
    rw [heff] at hle
    have : cal = 8 := by
      simp [halfPairs] at hpair
      exact hpair
    omega
  · intro hsep
    refine (mem_v3MissingY1_iff parsed rec ⟨parsed.year, 9⟩ .SEP).mpr ⟨9, ?_, ?_, hsep⟩
    · rw [hH1]
      decide
    · rw [heff]

/-- Witness for the amended C4 at the concrete September-start record. -/
theorem c4_effective_start_months_witness :
    ∃ res, v3ForRecord ⟨2025, 10⟩ wRec4 = some res ∧
      .OCT ∈ res.missingMonths ∧ .NOV ∈ res.missingMonths ∧
      .JUL ∉ res.missingMonths ∧ .AUG ∉ res.missingMonths ∧
      (isQuotaValueMissing (wRec4.monthlyQuotas.get .SEP) = true →
        .SEP ∈ res.missingMonths) :=
  c4_effective_start_months ⟨2025, 10⟩ wRec4 rfl (by decide) rfl rfl

/-- C5: for a Qtrly plan (case-insensitive) with effective month 1..6,
positive amounts are expected exactly from the effective month through the
quarter boundary (month 3 when the effective month is at most 3, else
month 6); a positive Rev-1 amount outside that range yields a
should-be-zero issue and a non-positive amount inside it yields a
missing-amount issue, and any computed issue is reported in the alignment
check's output for the record. -/
theorem c5_qtrly_alignment (ptStr : String) (eff : Nat) (d : UDate)
    (hpt : lowerStr ptStr = "qtrly") (h1 : 1 ≤ eff) (h6 : eff ≤ 6) :
    (∀ m b, (m, b) ∈ getExpectedActiveMonths eff ptStr →
      (b = true ↔ (eff ≤ lmsMonthToCal m ∧
        lmsMonthToCal m ≤ (if eff ≤ 3 then 3 else 6)))) ∧
    (∀ rec : LmsQuotaRecord, rec.planType = ptStr → ∀ m : LmsMonth,
      ((∃ i ∈ lmsV2Issues rec eff, i.month = m ∧
          i.column = "Rev1-" ++ lmsMonthName m ∧ i.issueType = .should_be_zero) ↔
        (checkRev1 rec.component = true ∧
          hasPositiveAmount (rec.rev1Monthly.get m) = true ∧
          ¬(eff ≤ lmsMonthToCal m ∧
            lmsMonthToCal m ≤ (if eff ≤ 3 then 3 else 6)))) ∧
      ((∃ i ∈ lmsV2Issues rec eff, i.month = m ∧
          i.column = "Rev1-" ++ lmsMonthName m ∧ i.issueType = .missing_amount) ↔
        (checkRev1 rec.component = true ∧
          hasPositiveAmount (rec.rev1Monthly.get m) = false ∧
          eff ≤ lmsMonthToCal m ∧
          lmsMonthToCal m ≤ (if eff ≤ 3 then 3 else 6)))) ∧
    (∀ rec : LmsQuotaRecord, rec.planType = ptStr →
      isTbhOrBlank rec.employeeId = false →
      rec.quotaEffectiveDate = some d → d.month = eff →
      ∀ P : LmsV2Issue → Prop, (∃ i ∈ lmsV2Issues rec eff, P i) →
        ∃ res, lmsV2ForRecord rec = some res ∧ ∃ i ∈ res.issues, P i) := by
  refine ⟨?_, ?_, ?_⟩
  · intro m b hmem
    rw [getExpected_qtrly_eq ptStr hpt eff, List.mem_map] at hmem
    obtain ⟨m2, _, hf⟩ := hmem
    injection hf with ha hb
    subst ha
    subst hb
    simp [decide_eq_true_eq]
  · intro rec hplan m
    have hq : lowerStr rec.planType = "qtrly" := by
      rw [hplan]
      exact hpt
    have hnokr : (lowerStr rec.planType == "okr") = false := by
      rw [hq]
      decide
    have main : ∀ T : LmsV2IssueType,
        (T = .should_be_zero ∨ T = .missing_amount) →
        ((∃ i ∈ lmsV2Issues rec eff, i.month = m ∧
            i.column = "Rev1-" ++ lmsMonthName m ∧ i.issueType = T) ↔
          (checkRev1 rec.component = true ∧
           ((T = .missing_amount ∧
              decide (eff ≤ lmsMonthToCal m ∧
                lmsMonthToCal m ≤ (if eff ≤ 3 then 3 else 6)) = true ∧
              hasPositiveAmount (rec.rev1Monthly.get m) = false) ∨
            (T = .should_be_zero ∧
              decide (eff ≤ lmsMonthToCal m ∧
                lmsMonthToCal m ≤ (if eff ≤ 3 then 3 else 6)) = false ∧
              hasPositiveAmount (rec.rev1Monthly.get m) = true)))) := by
      intro T hT
      unfold lmsV2Issues
      rw [getExpected_qtrly_eq rec.planType hq eff]
      constructor
      · rintro ⟨i, hi, hP⟩
        rw [List.mem_flatMap] at hi
        obtain ⟨p, hp, hip⟩ := hi
        rw [List.mem_map] at hp
        obtain ⟨m2, _, rfl⟩ := hp
        have hchar := (rev1_issue_forMonth_iff rec eff m2 _ m T hT hnokr).mp
          ⟨i, hip, hP⟩
        obtain ⟨rfl, hc1, hcase⟩ := hchar
        exact ⟨hc1, hcase⟩
      · rintro ⟨hc1, hcase⟩
        obtain ⟨i, hi, hP⟩ := (rev1_issue_forMonth_iff rec eff m
          (decide (eff ≤ lmsMonthToCal m ∧
            lmsMonthToCal m ≤ (if eff ≤ 3 then 3 else 6))) m T hT hnokr).mpr
          ⟨rfl, hc1, hcase⟩
        refine ⟨i, ?_, hP⟩
        rw [List.mem_flatMap]
        exact ⟨(m, decide (eff ≤ lmsMonthToCal m ∧
          lmsMonthToCal m ≤ (if eff ≤ 3 then 3 else 6))),
          List.mem_map.mpr ⟨m, mem_LMS_MONTHS m, rfl⟩, hi⟩
    constructor
    · rw [main .should_be_zero (Or.inl rfl)]
      constructor
      · rintro ⟨hc1, hcase⟩
        rcases hcase with ⟨hne, _, _⟩ | ⟨_, hsh, hpos⟩
        · simp at hne
        · refine ⟨hc1, hpos, ?_⟩
          simpa using hsh
      · rintro ⟨hc1, hpos, hncond⟩
        exact ⟨hc1, Or.inr ⟨rfl, by simpa using hncond, hpos⟩⟩
    · rw [main .missing_amount (Or.inr rfl)]
      constructor
      · rintro ⟨hc1, hcase⟩
        rcases hcase with ⟨_, hsh, hpos⟩ | ⟨hne, _, _⟩
        · have := of_decide_eq_true hsh
          exact ⟨hc1, hpos, this.1, this.2⟩
        · simp at hne
      · rintro ⟨hc1, hpos, hcond1, hcond2⟩
        exact ⟨hc1, Or.inl ⟨rfl, decide_eq_true ⟨hcond1, hcond2⟩, hpos⟩⟩
  · intro rec hplan htbh hdate hdm P hex
    obtain ⟨i, hi, hP⟩ := hex
    have hne : lmsV2Issues rec eff ≠ [] := List.ne_nil_of_mem hi
    have hemp : (lmsV2Issues rec eff).isEmpty = false := by
      simpa using hne
    have hmax : max 1 d.month = eff := by
      rw [hdm]
      exact Nat.max_eq_right h1
    unfold lmsV2ForRecord
    rw [htbh]
    simp only [Bool.false_eq_true, if_false]
    rw [hdate]
    dsimp only
    rw [if_neg (by omega : ¬ d.month > 6), hmax, hemp]
    simp only [Bool.false_eq_true, if_false]
    refine ⟨⟨rec, (lmsV2Issues rec eff).mergeSort issueLE⟩, rfl, i, ?_, hP⟩
    rw [(List.mergeSort_perm (lmsV2Issues rec eff) issueLE).mem_iff]
    exact hi

/-- Qtrly-plan LMS record effective February with a positive April
amount. -/
def wLmsQtrly : LmsQuotaRecord :=
  { lmsBase with
    employeeId := "E8"
    planType := "Qtrly"
    quotaEffectiveDate := some (UDate.mk 2026 2)
    rev1Monthly := ⟨.num 0, .num 5, .num 0, .num 7, .num 0, .num 0⟩ }

/-- Witness for C5: effective month 2 makes a positive April amount a
should-be-zero issue, and the issue is reported in the check's output. -/
theorem c5_qtrly_alignment_witness :
    ((∃ i ∈ lmsV2Issues wLmsQtrly 2, i.month = LmsMonth.APR ∧
        i.column = "Rev1-" ++ lmsMonthName .APR ∧
        i.issueType = .should_be_zero) ↔
      (checkRev1 wLmsQtrly.component = true ∧
        hasPositiveAmount (wLmsQtrly.rev1Monthly.get .APR) = true ∧
        ¬((2 : Nat) ≤ lmsMonthToCal .APR ∧
          lmsMonthToCal .APR ≤ (if (2 : Nat) ≤ 3 then 3 else 6)))) ∧
    (∃ res, lmsV2ForRecord wLmsQtrly = some res ∧
      ∃ i ∈ res.issues, i.issueType = LmsV2IssueType.should_be_zero) :=
  ⟨((c5_qtrly_alignment "Qtrly" 2 ⟨2026, 2⟩ (by decide) (by decide)
      (by decide)).2.1 wLmsQtrly rfl .APR).1,
   (c5_qtrly_alignment "Qtrly" 2 ⟨2026, 2⟩ (by decide) (by decide)
      (by decide)).2.2 wLmsQtrly rfl (by decide) rfl rfl
     (fun i => i.issueType = .should_be_zero)
     ⟨⟨"Rev1-APR", .APR, .should_be_zero,
       "Month before effective date or after quarter end should be 0", .num 7⟩,
      by decide, rfl⟩⟩

/-- Semi-plan LMS record whose effective date lies in March of the PRIOR
year relative to a January-to-June window, with positive amounts in every
window month. -/
def wLmsPriorYear : LmsQuotaRecord :=
  { lmsBase with
    employeeId := "E9"
    planType := "Semi"
    quotaEffectiveDate := some (UDate.mk 2025 3)
    rev1Monthly := ⟨.num 100, .num 100, .num 100, .num 100, .num 100, .num 100⟩ }

/-- C6 evaluation at the failing input: the code reads only the month of
the effective date, so a prior-year March date is validated with
effective month 3 — January and February draw should-be-zero issues —
whereas under the clamp-to-January behavior the claim (and the code's own
inline comment) describes, the effective month would be 1 and the record
would be issue-free. The `max 1 month` clamp never fires because a
calendar month is always at least 1. -/
theorem c6_prior_year_not_clamped :
    wLmsPriorYear.quotaEffectiveDate = some ⟨2025, 3⟩ ∧
    lmsV2ForRecord wLmsPriorYear =
      some ⟨wLmsPriorYear, (lmsV2Issues wLmsPriorYear 3).mergeSort issueLE⟩ ∧
    lmsV2Issues wLmsPriorYear 3 =
      [⟨"Rev1-JAN", .JAN, .should_be_zero,
        "Month before effective date or after quarter end should be 0", .num 100⟩,
       ⟨"Rev1-FEB", .FEB, .should_be_zero,
        "Month before effective date or after quarter end should be 0", .num 100⟩] ∧
    lmsV2Issues wLmsPriorYear 1 = [] ∧
    max 1 3 = 3 :=
  ⟨rfl, rfl, rfl, rfl, rfl⟩

/-- C9: `runValidation` fails with the invalid-submission-month error,
with no results produced, exactly when the selected period label does not
match the three-letter-abbreviation/hyphen/two-digit format
(case-insensitive); a matching label parses to year 2000 + YY and a month
in 1..12. -/
theorem c9_invalid_month_error (allRecords : List QuotaRecord)
    (refRecords : List ReferenceRecord) (label : String) (region : Region) :
    ((∃ msg, runValidation allRecords refRecords label region = .error msg) ↔
      ¬ matchesMonthLabelFormat label) ∧
    (∀ p, parseSubmissionMonthLabel label = some p →
      (1 ≤ p.month ∧ p.month ≤ 12) ∧
      ∃ c1 c2 c3 d1 d2 : Char, label.data = [c1, c2, c3, '-', d1, d2] ∧
        d1.isDigit = true ∧ d2.isDigit = true ∧
        p.year = 2000 + ((d1.toNat - 48) * 10 + (d2.toNat - 48))) := by
  constructor
  · unfold runValidation
    cases hp : parseSubmissionMonthLabel label with
    | none =>
      have hfmt := parse_isSome_iff label
      rw [hp] at hfmt
      simp only [Option.isSome_none, Bool.false_eq_true, false_iff] at hfmt
      simp [hfmt]
    | some q =>
      have hfmt := parse_isSome_iff label
      rw [hp] at hfmt
      simp only [Option.isSome_some, true_iff] at hfmt
      simp [hfmt]
  · intro p hp
    unfold parseSubmissionMonthLabel at hp
    rcases hd : label.data with _ | ⟨a, _ | ⟨b, _ | ⟨c, _ | ⟨d, _ | ⟨e, _ | ⟨f, _ | ⟨g, t⟩⟩⟩⟩⟩⟩⟩ <;>
        rw [hd] at hp <;> try (simp at hp; done)
    split at hp
    next x c1 c2 c3 c4 d1 d2 hcond =>
      simp only [List.cons.injEq, and_true] at hcond
      obtain ⟨h1, h2, h3, h4, h5, h6⟩ := hcond
      subst h1
      subst h2
      subst h3
      subst h4
      subst h5
      subst h6
      by_cases hcond2 : (d == '-' && e.isDigit && f.isDigit) = true
      · rw [if_pos hcond2] at hp
        rw [Bool.and_assoc, Bool.and_eq_true, Bool.and_eq_true] at hcond2
        obtain ⟨hdash, he, hf⟩ := hcond2
        have hdash2 : d = '-' := by simpa using hdash
        subst hdash2
        cases habb : monthAbbrevIndex (String.mk [a.toLower, b.toLower, c.toLower]) with
        | none => rw [habb] at hp; simp at hp
        | some m =>
          rw [habb] at hp
          simp only [Option.some.injEq] at hp
          subst hp
          refine ⟨by simpa using monthAbbrevIndex_bounds _ m habb, a, b, c, e, f, rfl, he, hf, ?_⟩
          simp [Nat.add_assoc]
      · rw [if_neg hcond2] at hp
        simp at hp
    next x hno => exact absurd rfl (hno a b c d e f)

/-- Witness for C9 at the concrete label Jan-26. -/
theorem c9_invalid_month_error_witness :
    (1 ≤ (ParsedMonth.mk 2026 1).month ∧ (ParsedMonth.mk 2026 1).month ≤ 12) ∧
    ∃ c1 c2 c3 d1 d2 : Char, "Jan-26".data = [c1, c2, c3, '-', d1, d2] ∧
      d1.isDigit = true ∧ d2.isDigit = true ∧
      (ParsedMonth.mk 2026 1).year = 2000 + ((d1.toNat - 48) * 10 + (d2.toNat - 48)) :=
  (c9_invalid_month_error [] [] "Jan-26" .APAC).2 ⟨2026, 1⟩ rfl

/-- C10: for a successful run, every period-matching record contributes
exactly one V1 result, the V1 pass/fail/skip counts add up to the total
record count, and the duplicate and missing-quota counts equal the lengths
of the V2 and V3 result lists. -/
theorem c10_summary_consistent (allRecords : List QuotaRecord)
    (refRecords : List ReferenceRecord) (label : String) (region : Region)
    (parsed : ParsedMonth) (res : ValidationResults)
    (hparse : parseSubmissionMonthLabel label = some parsed)
    (hrun : runValidation allRecords refRecords label region = .ok res) :
    res.v1.map (·.record) = allRecords.filter (periodMatches parsed) ∧
    res.summary.totalRecords = (allRecords.filter (periodMatches parsed)).length ∧
    res.summary.v1Pass + res.summary.v1Fail + res.summary.v1Skip =
      res.summary.totalRecords ∧
    res.summary.v2DuplicateEids = res.v2.length ∧
    res.summary.v3MissingQuota = res.v3.length := by
  unfold runValidation at hrun
  rw [hparse] at hrun
  simp only [Except.ok.injEq] at hrun
  subst hrun
  refine ⟨?_, rfl, ?_, rfl, rfl⟩
  · dsimp only
    rw [List.map_map]
    conv_rhs => rw [← List.map_id (allRecords.filter (periodMatches parsed))]
    apply List.map_congr_left
    intro r _
    exact v1ForRecord_record _ _ _ r
  · dsimp only
    rw [v1_status_partition, List.length_map]

/-- Witness for C10 at a concrete two-record run. -/
theorem c10_summary_consistent_witness :
    wRunAB.v1.map (·.record) = [wRecA, wRecB].filter (periodMatches ⟨2026, 1⟩) ∧
    wRunAB.summary.totalRecords =
      ([wRecA, wRecB].filter (periodMatches ⟨2026, 1⟩)).length ∧
    wRunAB.summary.v1Pass + wRunAB.summary.v1Fail + wRunAB.summary.v1Skip =
      wRunAB.summary.totalRecords ∧
    wRunAB.summary.v2DuplicateEids = wRunAB.v2.length ∧
    wRunAB.summary.v3MissingQuota = wRunAB.v3.length :=
  c10_summary_consistent [wRecA, wRecB] [] "Jan-26" .APAC ⟨2026, 1⟩ wRunAB rfl rfl

end QuotaValidator
